import Mathlib

/-!
# Verification of the mtpy ModEM core (`src/mtpy/modeling/modem.py`)

A shallow embedding, over exact rationals, of the `Data` and `Model`
classes' period-list selection, data-file serialization, model-file
serialization, mesh construction and topography integration, together
with proofs settling the frozen claims about them.

Modelling conventions, used throughout and noted again at each definition:

* Python/numpy floats are modelled as exact rationals (`ℚ`).  Fixed-width
  text formatting of numeric fields (`'{:.6e}'`, `'{:.3f}'`, ...) is
  modelled as carrying the exact value: a written numeric field holds the
  number the code formatted.  The spec's "within the precision of the
  chosen formatting preset" clauses therefore become exact equalities here.
* Transcendental primitives that have no exact rational counterpart
  (`np.sqrt`, complex `abs`, `np.log`/`np.exp`, `np.logspace`) are taken
  as explicit function parameters of the embedded code; theorems
  hypothesise exactly the algebraic facts about them that the floating
  implementations satisfy at the points used.
* Text lines of the serialized files are modelled structurally: a line is
  a constructor carrying either its literal string (metadata lines, where
  the readers do substring matching) or its parsed fields (numeric lines,
  where only the values matter).
-/

namespace Mtpy

/-! ## Rational / list utilities (numpy helpers used by the source) -/

/-- Round-half-to-even to an integer, the rounding `np.round` uses. -/
def roundHalfEven (q : ℚ) : ℤ :=
  let f : ℤ := ⌊q⌋
  let r : ℚ := q - f
  if r < 1/2 then f
  else if 1/2 < r then f + 1
  else if 2 ∣ f then f else f + 1

/-- `np.round(x, -2)`: round to a multiple of 100 (ties to even). -/
def np_round_m2 (q : ℚ) : ℚ := (roundHalfEven (q / 100) : ℚ) * 100

/-- `a % b` on rationals as Python computes it for positive `b`:
`a - b*⌊a/b⌋`. -/
def qmod (a b : ℚ) : ℚ := a - b * (⌊a / b⌋ : ℚ)

/-- `np.arange(start, stop, step)` for positive step: `⌈(stop-start)/step⌉`
equally spaced values from `start`. -/
def arange (start stop step : ℚ) : List ℚ :=
  (List.range (⌈(stop - start) / step⌉).toNat).map fun i : ℕ => start + step * (i : ℚ)

/-- Minimum of a list (`np.min`; the source never takes it of an empty
array without crashing, the empty case here defaults to 0). -/
def minL : List ℚ → ℚ
  | [] => 0
  | x :: xs => xs.foldl min x

/-- Maximum of a list (`np.max`/`np.amax`), empty case defaults to 0. -/
def maxL : List ℚ → ℚ
  | [] => 0
  | x :: xs => xs.foldl max x

/-- `np.mean` of a list, empty case defaults to 0. -/
def meanL (l : List ℚ) : ℚ := l.sum / l.length

/-- Insert into an ascending list. -/
def insertAsc (x : ℚ) : List ℚ → List ℚ
  | [] => [x]
  | y :: ys => if x ≤ y then x :: y :: ys else y :: insertAsc x ys

/-- `sorted(...)` ascending. -/
def sortAsc (l : List ℚ) : List ℚ := l.foldr insertAsc []

/-- Python `sorted(set(...))` on rationals. -/
def sortedSet (l : List ℚ) : List ℚ := sortAsc l.dedup

/-- Partial sums: `cumsum`-style absolute positions from widths,
`[0, w0, w0+w1, ...]` (`n+1` entries for `n` widths). -/
def partialSums (l : List ℚ) : List ℚ :=
  (List.range (l.length + 1)).map fun i => ((l.take i).sum)

/-! ## String utilities (Python `str.lower`, `str.find`, `str.upper`) -/

/-- Python `s.lower()` modelled on the character list. -/
def strLowerL (l : List Char) : List Char := l.map Char.toLower

/-- Python `s.upper()` modelled on the character list. -/
def strUpperL (l : List Char) : List Char := l.map Char.toUpper

/-- Does `p` occur as a contiguous sublist of `l`?  Models
`s.find(p) >= 0`; for the metadata lines of the data file, which always
start with `'>'` while the probed needles never do, it also models
`s.find(p) > 0`. -/
def subOccurs (p : List Char) : List Char → Bool
  | [] => p.isEmpty
  | c :: rest => p.isPrefixOf (c :: rest) || subOccurs p rest

/-- String-level wrapper of `subOccurs`. -/
def strContainsSub (s pat : String) : Bool := subOccurs pat.toList s.toList

/-- `s.upper()` on strings. -/
def strUpper (s : String) : String := ⟨strUpperL s.toList⟩

/-- `s.lower()` on strings. -/
def strLower (s : String) : String := ⟨strLowerL s.toList⟩

/-- The character following the first `'('`, as
`dline[dline.find('(') + 1]` extracts it (default `' '` when absent). -/
def charAfterParenL : List Char → Char
  | [] => ' '
  | '(' :: c :: _ => c
  | '(' :: [] => ' '
  | _ :: rest => charAfterParenL rest

/-- String-level wrapper of `charAfterParenL`. -/
def charAfterParen (s : String) : Char := charAfterParenL s.toList

/-- Python `s.find(c) == 0` for a single character: the first character
of `s` is `c`. -/
def firstCharIs (s : String) (c : Char) : Bool :=
  match s.toList with
  | [] => false
  | a :: _ => a = c

/-! ## Complex rationals

The impedance/tipper values are numpy complex numbers; they are modelled
as pairs of exact rationals. -/

/-- A complex number with rational parts. -/
structure CQ where
  re : ℚ
  im : ℚ
deriving DecidableEq, Repr

/-- The zero complex value. -/
def CQ.zero : CQ := ⟨0, 0⟩

/-- Complex multiplication (used by `d_zxy * d_zyx` in the egbert error). -/
def CQ.mul (a b : CQ) : CQ := ⟨a.re * b.re - a.im * b.im, a.re * b.im + a.im * b.re⟩

/-! ## `Data.get_period_list` (modem.py lines 632-681), claim C3

The outcome of a `get_period_list` call: it returns normally, raises
`ModEMError`, or raises `IndexError` (the `np.where(...)[0][0]` lookups
at lines 666-667 on an empty index set). -/

/-- Possible outcomes of `Data.get_period_list`. -/
inductive PLOut where
  | ok : PLOut
  | modemError : PLOut
  | indexError : PLOut
deriving DecidableEq, Repr

/-- The attributes of a `Data` object that `get_period_list` consults.
`edi_list`/`mt_dict` are modelled as optional lists of per-station
frequency lists (reading an `.edi` file yields its frequencies). -/
structure PeriodConfig where
  edi_list : Option (List (List ℚ))
  mt_dict : Option (List (List ℚ))
  period_list : Option (List ℚ)
  period_min : Option ℚ
  period_max : Option ℚ
  max_num_periods : Option ℕ
deriving DecidableEq

/-- `Data.get_mt_dict` (lines 400-416): raises `ModEMError` (modelled as
`none`) when `edi_list` is `None` or empty, otherwise builds the station
dictionary from the edi files. -/
def get_mt_dict (cfg : PeriodConfig) : Option (List (List ℚ)) :=
  match cfg.edi_list with
  | none => none
  | some l => if l = [] then none else some l

/-- The `data_period_list` built at lines 648-654: `sorted(set(...))` of
`1/freq` over all stations. -/
def data_period_list (mt : List (List ℚ)) : List ℚ :=
  sortedSet (mt.flatMap fun freqs => freqs.map fun f => 1 / f)

/-- `Data.get_period_list` (lines 632-681).  Mirrors the source's control
flow: `mt_dict` is built from `edi_list` when absent (which can raise);
an explicit `period_list` returns immediately; one of
`period_min`/`period_max` without the other raises; both without
`max_num_periods` raises; with all three, an empty bracketing lookup in
the data periods is an `IndexError`; with neither bound set, the final
`period_list is None` check raises. -/
def get_period_list (cfg : PeriodConfig) : PLOut :=
  match (match cfg.mt_dict with
         | some m => some m
         | none => get_mt_dict cfg) with
  | none => PLOut.modemError
  | some mt =>
    match cfg.period_list with
    | some _ => PLOut.ok
    | none =>
      let dpl := data_period_list mt
      match cfg.period_min, cfg.period_max with
      | some _, none => PLOut.modemError
      | none, some _ => PLOut.modemError
      | some pmin, some pmax =>
        match cfg.max_num_periods with
        | none => PLOut.modemError
        | some _ =>
          if (dpl.filter fun p => pmin ≤ p) = [] then PLOut.indexError
          else if (dpl.filter fun p => p ≤ pmax) = [] then PLOut.indexError
          else PLOut.ok
      | none, none => PLOut.modemError

/-- The three situations claim C3 lists as the only `ModEMError` sources
of `get_period_list` when no explicit period list is set: exactly one of
`period_min`/`period_max` given; both given without `max_num_periods`;
and no period source at all (neither bound given, so nothing can resolve
a period list). -/
def claimedC3Situations (cfg : PeriodConfig) : Prop :=
  (cfg.period_min.isSome ∧ cfg.period_max.isNone) ∨
  (cfg.period_min.isNone ∧ cfg.period_max.isSome) ∨
  (cfg.period_min.isSome ∧ cfg.period_max.isSome ∧ cfg.max_num_periods.isNone) ∨
  (cfg.period_min.isNone ∧ cfg.period_max.isNone)

instance (cfg : PeriodConfig) : Decidable (claimedC3Situations cfg) := by
  unfold claimedC3Situations; infer_instance

/-- The station source is missing: `mt_dict` unset and `edi_list` `None`
or empty, so `get_mt_dict` raises before any period logic runs. -/
def stationSourceMissing (cfg : PeriodConfig) : Prop :=
  cfg.mt_dict = none ∧ (cfg.edi_list = none ∨ cfg.edi_list = some [])

instance (cfg : PeriodConfig) : Decidable (stationSourceMissing cfg) := by
  unfold stationSourceMissing; infer_instance

/-- Claim C3 as frozen, refuted: with no explicit `period_list`, with
`period_min`, `period_max` and `max_num_periods` all set, but with no
station source (`mt_dict` unset, `edi_list` `None`), `get_period_list`
still raises `ModEMError` (from `get_mt_dict`, line 406) although none of
the claim's three listed situations holds. -/
theorem C3_counterexample :
    get_period_list ⟨none, none, none, some 1, some 10, some 5⟩ = PLOut.modemError ∧
    (⟨none, none, none, some 1, some 10, some 5⟩ : PeriodConfig).period_list = none ∧
    ¬ claimedC3Situations ⟨none, none, none, some 1, some 10, some 5⟩ := by
  decide

/-- Claim C3, amended: `get_period_list` raises `ModEMError` exactly when
either the station source is missing (`mt_dict` unset and `edi_list`
`None` or empty — raised by `get_mt_dict` before any period logic), or
the station source is available, no explicit `period_list` is set, and
one of the claim's three situations holds: exactly one of
`period_min`/`period_max` given, both given without `max_num_periods`,
or no period source at all. -/
theorem C3_period_list_error_conditions (cfg : PeriodConfig) :
    get_period_list cfg = PLOut.modemError ↔
      (stationSourceMissing cfg ∨
        (¬ stationSourceMissing cfg ∧ cfg.period_list = none ∧
          claimedC3Situations cfg)) := by
  obtain ⟨e, m, pl, mn, mx, mnp⟩ := cfg
  rcases m with - | m <;> rcases pl with - | pl <;>
    rcases mn with - | mn <;> rcases mx with - | mx <;>
    rcases mnp with - | mnp <;>
    rcases e with - | (- | ⟨f, e⟩) <;>
    simp [get_period_list, get_mt_dict, stationSourceMissing,
      claimedC3Situations] <;>
    split <;> simp_all <;> split <;> simp_all

/-! ## The `Data` object and `write_data_file` (modem.py lines 892-1076)

`data_array` is modelled as a list of stations; the numpy structured
dtype's complex-valued error fields hold real values in every use the
writer makes of them, so the error tensors are modelled with rational
entries directly. -/

/-- A 2×2 complex tensor (one period's impedance). -/
structure Z2 where
  xx : CQ
  xy : CQ
  yx : CQ
  yy : CQ
deriving DecidableEq, Repr

/-- A 1×2 complex tensor (one period's tipper). -/
structure T2 where
  tx : CQ
  ty : CQ
deriving DecidableEq, Repr

/-- A 2×2 real tensor (one period's impedance errors). -/
structure Z2R where
  xx : ℚ
  xy : ℚ
  yx : ℚ
  yy : ℚ
deriving DecidableEq, Repr

/-- A 1×2 real tensor (one period's tipper errors). -/
structure T2R where
  tx : ℚ
  ty : ℚ
deriving DecidableEq, Repr

/-- One record of `Data.data_array` (the structured dtype of lines
318-330): identity, locations, and period-indexed tensors. -/
structure StationD where
  name : String
  lat : ℚ
  lon : ℚ
  elev : ℚ
  rel_east : ℚ
  rel_north : ℚ
  z : List Z2
  z_err : List Z2R
  tip : List T2
  tip_err : List T2R
deriving DecidableEq

/-- The `Data` attributes `write_data_file` and `read_data_file` use.
`formatting` selects between the two width presets `'1'`/`'2'`; both
presets emit the same field values, so the structural writer below does
not branch on it (a value outside `{'1','2'}` would crash the Python
writer with an unbound local before any file is produced). -/
structure DataState where
  stations : List StationD
  period_list : List ℚ
  units : String
  wave_sign_impedance : Char
  wave_sign_tipper : Char
  inv_mode : String
  formatting : String
  error_type : String
  error_floor : ℚ
  error_value : ℚ
  error_egbert : ℚ
  error_tipper : ℚ
  center_position : ℚ × ℚ
  rotation_angle : ℚ
deriving DecidableEq

/-- `Data.inv_mode_dict` (lines 332-340).  Note the corrupted `'4'` key
in the source: the dictionary's fourth key is the long
`'4/g/data/...'` path string, so looking up inversion mode `'4'` is a
`KeyError` (`none`). -/
def inv_mode_dict (m : String) : Option (List String) :=
  if m = "1" then some ["Full_Impedance", "Full_Vertical_Components"]
  else if m = "2" then some ["Full_Impedance"]
  else if m = "3" then some ["Off_Diagonal_Impedance", "Full_Vertical_Components"]
  else if m = "4/g/data/ha3/fxz547/Githubz/mtpy2/examples/data/ModEM_files/VicSynthetic07/Modular_MPI_NLCG_019.rho"
    then some ["Off_Diagonal_Impedance"]
  else if m = "5" then some ["Full_Vertical_Components"]
  else if m = "6" then some ["Full_Interstation_TF"]
  else if m = "7" then some ["Off_Diagonal_Rho_Phase"]
  else none

/-- `Data.inv_comp_dict` (lines 341-343); the two modes of `'6'`/`'7'`
have no entry, so writing them is a `KeyError` (`none`). -/
def inv_comp_dict (mode : String) : Option (List String) :=
  if mode = "Full_Impedance" then some ["zxx", "zxy", "zyx", "zyy"]
  else if mode = "Off_Diagonal_Impedance" then some ["zxy", "zyx"]
  else if mode = "Full_Vertical_Components" then some ["tx", "ty"]
  else none

/-- The default (all-zero) impedance tensor, numpy's zero fill. -/
def Z2.zero : Z2 := ⟨CQ.zero, CQ.zero, CQ.zero, CQ.zero⟩

/-- The default (all-zero) tipper tensor. -/
def T2.zero : T2 := ⟨CQ.zero, CQ.zero⟩

/-- The default (all-zero) impedance error tensor. -/
def Z2R.zero : Z2R := ⟨0, 0, 0, 0⟩

/-- The default (all-zero) tipper error tensor. -/
def T2R.zero : T2R := ⟨0, 0⟩

/-- `data_array[ss]['z'][ff]` with numpy's zero default out of range. -/
def zAt (st : StationD) (ff : ℕ) : Z2 := st.z.getD ff Z2.zero

/-- `data_array[ss]['tip'][ff]`. -/
def tipAt (st : StationD) (ff : ℕ) : T2 := st.tip.getD ff T2.zero

/-- `data_array[ss][c_key][ff, z_ii, z_jj]` resolved through
`comp_index_dict` (line 345) and the `c_key` selection of lines 983-986:
a component name starting `'z'` reads the impedance tensor, one starting
`'t'` the tipper. -/
def comp_value (st : StationD) (ff : ℕ) (c : String) : CQ :=
  if c = "zxx" then (zAt st ff).xx
  else if c = "zxy" then (zAt st ff).xy
  else if c = "zyx" then (zAt st ff).yx
  else if c = "zyy" then (zAt st ff).yy
  else if c = "tx" then (tipAt st ff).tx
  else if c = "ty" then (tipAt st ff).ty
  else CQ.zero

/-- `data_array[ss][c_key + '_err'][ff, z_ii, z_jj]` (stored error for a
component; real-valued in every use). -/
def comp_stored_err (st : StationD) (ff : ℕ) (c : String) : ℚ :=
  if c = "zxx" then (st.z_err.getD ff Z2R.zero).xx
  else if c = "zxy" then (st.z_err.getD ff Z2R.zero).xy
  else if c = "zyx" then (st.z_err.getD ff Z2R.zero).yx
  else if c = "zyy" then (st.z_err.getD ff Z2R.zero).yy
  else if c = "tx" then (st.tip_err.getD ff T2R.zero).tx
  else if c = "ty" then (st.tip_err.getD ff T2R.zero).ty
  else 0

/-- The tipper error the `'floor'` branch reads at line 1029:
`tip_err[ff, 0, z_ii]` — `z_ii` is 0 for both `tx` and `ty`
(`comp_index_dict` maps them to `(0,0)` and `(0,1)`), so both components
consult the stored `tx` error. -/
def tip_err_floor_lookup (st : StationD) (ff : ℕ) : ℚ :=
  (st.tip_err.getD ff T2R.zero).tx

/-- The egbert error estimate of lines 1043-1046:
`sqrt(abs(zxy*zyx)) * error_egbert / 100`, with the complex modulus and
the square root supplied as the floating primitives `cabsF`/`sqrtF`. -/
def egbert_estimate (cabsF : CQ → ℚ) (sqrtF : ℚ → ℚ)
    (st : StationD) (ff : ℕ) (eg : ℚ) : ℚ :=
  sqrtF (cabsF (CQ.mul (zAt st ff).xy (zAt st ff).yx)) * eg / 100

/-- The `compute_error` branch of lines 1026-1052: the absolute error for
one component, before the zero-replacement step.  `prev` is the value
the Python local `abs_err` holds from the previous emitted line; it is
read only when `error_type` is none of the four recognised names (the
source would then reuse the stale local). -/
def compute_abs_err (cabsF : CQ → ℚ) (sqrtF : ℚ → ℚ) (d : DataState)
    (st : StationD) (ff : ℕ) (c : String) (zz : CQ) (prev : ℚ) : ℚ :=
  if firstCharIs c 't' then
    if strContainsSub d.error_type "floor" then
      max d.error_tipper (tip_err_floor_lookup st ff)
    else d.error_tipper
  else if firstCharIs c 'z' then
    if d.error_type = "floor" then
      let rel_err := comp_stored_err st ff c / cabsF zz
      let rel_err := if rel_err < d.error_floor / 100 then d.error_floor / 100 else rel_err
      rel_err * cabsF zz
    else if d.error_type = "value" then
      cabsF zz * d.error_value / 100
    else if d.error_type = "egbert" then
      egbert_estimate cabsF sqrtF st ff d.error_egbert
    else if d.error_type = "floor_egbert" then
      let a := comp_stored_err st ff c
      if a < egbert_estimate cabsF sqrtF st ff d.error_egbert then
        egbert_estimate cabsF sqrtF st ff d.error_egbert
      else a
    else prev
  else prev

/-- The zero-error replacement of lines 1054-1059: a computed error of
exactly 0 becomes `1e3` (divided by 796 under Ohm units) and the event
is reported (the `Bool` marks the printed diagnostic). -/
def zero_replaced_err (units : String) (e : ℚ) : ℚ × Bool :=
  if e = 0 then ((if units = "ohm" then 1000 / 796 else 1000), true) else (e, false)

/-- The error value a data line carries: computed (lines 1024-1059) when
`compute_error`, else the stored error's real part with the Ohm
conversion for impedance components (lines 1061-1064); the written field
is its absolute value (line 1066). -/
def written_err (cabsF : CQ → ℚ) (sqrtF : ℚ → ℚ) (d : DataState)
    (compute_error : Bool) (st : StationD) (ff : ℕ) (c : String)
    (zz : CQ) (prev : ℚ) : ℚ × Bool :=
  if compute_error then
    zero_replaced_err d.units (compute_abs_err cabsF sqrtF d st ff c zz prev)
  else
    let a := comp_stored_err st ff c
    ((if firstCharIs c 'z' ∧ d.units = "ohm" then a / 796 else a), false)

/-- One fixed-width data line of the file, by its parsed fields (in the
order written at lines 1068-1069: period, station, lat, lon, north, east,
elevation, component, real, imaginary, error). -/
structure DataRow where
  per : ℚ
  sta : String
  lat : ℚ
  lon : ℚ
  nor : ℚ
  eas : ℚ
  ele : ℚ
  com : String
  rea : ℚ
  ima : ℚ
  err : ℚ
deriving DecidableEq

/-- The line-emission guard of lines 990-991: both parts nonzero and
neither equal to the `1e32` sentinel. -/
def writableB (v : CQ) : Bool :=
  v.re ≠ 0 && v.im ≠ 0 && v.re ≠ 10 ^ 32 && v.im ≠ 10 ^ 32

/-- `writableB` as a proposition. -/
def Writable (v : CQ) : Prop :=
  v.re ≠ 0 ∧ v.im ≠ 0 ∧ v.re ≠ 10 ^ 32 ∧ v.im ≠ 10 ^ 32

theorem writableB_iff (v : CQ) : writableB v = true ↔ Writable v := by
  simp [writableB, Writable, and_assoc]

/-- The data line for one emitted component (lines 992-1069): the Ohm
units conversion of lines 1001-1006/1018-1023 divides the real and
imaginary parts of the value by 796 whatever the component is; both
formatting presets carry the same values. -/
def mkDataRow (d : DataState) (st : StationD) (ff : ℕ) (c : String)
    (zz : CQ) (errVal : ℚ) : DataRow :=
  { per := d.period_list.getD ff 0
    sta := st.name
    lat := st.lat
    lon := st.lon
    nor := st.rel_north
    eas := st.rel_east
    ele := st.elev
    com := strUpper c
    rea := if d.units = "ohm" then zz.re / 796 else zz.re
    ima := if d.units = "ohm" then zz.im / 796 else zz.im
    err := |errVal| }

/-- One line of the written data file, structurally: the two header
comment lines (carrying the values their text shows), a `'>'` metadata
line by its literal text, the numeric center / counts metadata lines by
their parsed values, or a data line. -/
inductive FileLine where
  | header1 (error_type : String) (errval rotation : ℚ)
  | header2
  | meta (s : String)
  | metaCenter (e n : ℚ)
  | metaCounts (nper ns : ℕ)
  | data (r : DataRow)
deriving DecidableEq

/-- The error percentage `_set_header_string` (lines 381-398) puts in the
first header line; for an unrecognised `error_type` the initial header
built at line 348 (showing `error_floor`) is left in place. -/
def header_errval (d : DataState) : ℚ :=
  if d.error_type = "egbert" then d.error_egbert
  else if d.error_type = "floor" then d.error_floor
  else if d.error_type = "value" then d.error_value
  else d.error_floor

/-- The period count of line 956: the number of period indices whose
impedance entries are not all zero (`np.mean` of the absolute values is
positive exactly when some entry is nonzero). -/
def nper_count (d : DataState) : ℕ :=
  ((List.range d.period_list.length).filter fun ff =>
    d.stations.any fun st => zAt st ff ≠ Z2.zero).length

/-- The (station, period-index, component) triples the three nested
loops of lines 976-978 visit for one inversion-mode block; the period
dimension of the `z` array equals `len(period_list)` for a consistently
filled `data_array`. -/
def block_keys (d : DataState) (comps : List String) :
    List (StationD × ℕ × String) :=
  d.stations.flatMap fun st =>
    (List.range d.period_list.length).flatMap fun ff =>
      comps.map fun c => (st, ff, c)

/-- One iteration of the emission loop: skip a non-writable value,
otherwise compute the error (threading the Python local `abs_err`
through `prev`) and append the data line. -/
def emit_step (cabsF : CQ → ℚ) (sqrtF : ℚ → ℚ) (d : DataState)
    (compute_error : Bool) (acc : ℚ × List DataRow)
    (k : StationD × ℕ × String) : ℚ × List DataRow :=
  let st := k.1
  let ff := k.2.1
  let c := k.2.2
  let zz := comp_value st ff c
  if writableB zz then
    let e1 := (written_err cabsF sqrtF d compute_error st ff c zz acc.1).1
    (e1, acc.2 ++ [mkDataRow d st ff c zz e1])
  else acc

/-- All data lines of one inversion-mode block (lines 976-1070). -/
def emit_rows (cabsF : CQ → ℚ) (sqrtF : ℚ → ℚ) (d : DataState)
    (compute_error : Bool) (comps : List String) : List DataRow :=
  ((block_keys d comps).foldl (emit_step cabsF sqrtF d compute_error) (0, [])).2

/-- The header/metadata lines of one inversion-mode block (lines
959-974).  A mode name containing `'Impedance'` (always at positive
position) gets the impedance wave-sign and units lines; one containing
`'Vertical'` gets the tipper wave-sign line and `'> []'`; any other mode
(`Full_Interstation_TF`, `Off_Diagonal_Rho_Phase`) gets neither. -/
def mode_meta_lines (d : DataState) (mode : String) : List FileLine :=
  [FileLine.header1 d.error_type (header_errval d) d.rotation_angle,
   FileLine.header2,
   FileLine.meta ("> " ++ mode)] ++
  (if strContainsSub mode "Impedance" then
     [FileLine.meta ("> exp(" ++ String.singleton d.wave_sign_impedance ++ "i\\omega t)"),
      FileLine.meta ("> " ++ d.units)]
   else if strContainsSub mode "Vertical" then
     [FileLine.meta ("> exp(" ++ String.singleton d.wave_sign_tipper ++ "i\\omega t)"),
      FileLine.meta "> []"]
   else []) ++
  [FileLine.meta "> 0",
   FileLine.metaCenter d.center_position.1 d.center_position.2,
   FileLine.metaCounts (nper_count d) d.stations.length]

/-- One full inversion-mode block; `none` is the `KeyError` of
`inv_comp_dict[inv_mode]` for the two modes without component lists. -/
def mode_block (cabsF : CQ → ℚ) (sqrtF : ℚ → ℚ) (d : DataState)
    (compute_error : Bool) (mode : String) : Option (List FileLine) :=
  match inv_comp_dict mode with
  | none => none
  | some comps =>
    some (mode_meta_lines d mode ++
      (emit_rows cabsF sqrtF d compute_error comps).map FileLine.data)

/-- `Data.write_data_file` (lines 892-1076) with `fill=False` (the
`data_array` is already populated; the `fill=True` path re-interpolates
it from `mt_dict` first and then emits the same way).  `none` models the
`KeyError` crashes: `inv_mode_dict[self.inv_mode]` for mode `'4'` (its
dictionary key is corrupted, see `inv_mode_dict`) and
`inv_comp_dict[...]` for modes `'6'`/`'7'`; the exception propagates
before the file is opened, so no file is produced. -/
def write_data_file (cabsF : CQ → ℚ) (sqrtF : ℚ → ℚ) (d : DataState)
    (compute_error : Bool) : Option (List FileLine) :=
  match inv_mode_dict d.inv_mode with
  | none => none
  | some modes =>
    modes.foldl
      (fun acc mode =>
        match acc, mode_block cabsF sqrtF d compute_error mode with
        | some ls, some b => some (ls ++ b)
        | _, _ => none)
      (some [])

/-! ## Characterizing the emitted data rows -/

/-- The fields of a data line other than the error column (the error
column threads the Python local `abs_err`, so it is handled separately). -/
structure DataRowCore where
  per : ℚ
  sta : String
  lat : ℚ
  lon : ℚ
  nor : ℚ
  eas : ℚ
  ele : ℚ
  com : String
  rea : ℚ
  ima : ℚ
deriving DecidableEq

/-- Forget a data row's error column. -/
def DataRow.core (r : DataRow) : DataRowCore :=
  ⟨r.per, r.sta, r.lat, r.lon, r.nor, r.eas, r.ele, r.com, r.rea, r.ima⟩

/-- The error-independent part of the data line for key `(st, ff, c)`. -/
def coreRow (d : DataState) (st : StationD) (ff : ℕ) (c : String) : DataRowCore :=
  (mkDataRow d st ff c (comp_value st ff c) 0).core

/-- Does the emission guard pass for a key? -/
def keyWritable (k : StationD × ℕ × String) : Bool :=
  writableB (comp_value k.1 k.2.1 k.2.2)

theorem core_mkDataRow (d : DataState) (st : StationD) (ff : ℕ) (c : String)
    (e : ℚ) :
    (mkDataRow d st ff c (comp_value st ff c) e).core = coreRow d st ff c := by
  rfl

/-- The emission fold, projected away from the error column: the rows'
cores are exactly the cores of the writable keys, independently of the
threaded `abs_err`. -/
theorem emit_fold_core (cabsF : CQ → ℚ) (sqrtF : ℚ → ℚ) (d : DataState)
    (ce : Bool) (keys : List (StationD × ℕ × String)) :
    ∀ (prev : ℚ) (rows : List DataRow),
      ((keys.foldl (emit_step cabsF sqrtF d ce) (prev, rows)).2).map DataRow.core
        = rows.map DataRow.core ++
          (keys.filter keyWritable).map fun k => coreRow d k.1 k.2.1 k.2.2 := by
  induction keys with
  | nil => intro prev rows; simp
  | cons k ks ih =>
    intro prev rows
    by_cases hw : keyWritable k
    · obtain ⟨st, ff, c⟩ := k
      simp only [List.foldl_cons, emit_step, List.filter_cons]
      rw [if_pos (by simpa [keyWritable] using hw)]
      simp only [hw, if_true]
      rw [ih]
      simp [core_mkDataRow]
    · obtain ⟨st, ff, c⟩ := k
      simp only [List.foldl_cons, emit_step, List.filter_cons]
      rw [if_neg (by simpa [keyWritable] using hw)]
      simp only [hw, if_false]
      rw [ih]
      simp

/-- With `compute_error=False` the error column does not read the
threaded `abs_err`, so the emission fold is a plain map over the
writable keys. -/
theorem emit_fold_no_compute (cabsF : CQ → ℚ) (sqrtF : ℚ → ℚ) (d : DataState)
    (keys : List (StationD × ℕ × String)) :
    ∀ (prev : ℚ) (rows : List DataRow),
      (keys.foldl (emit_step cabsF sqrtF d false) (prev, rows)).2
        = rows ++
          (keys.filter keyWritable).map fun k =>
            mkDataRow d k.1 k.2.1 k.2.2 (comp_value k.1 k.2.1 k.2.2)
              ((written_err cabsF sqrtF d false k.1 k.2.1 k.2.2
                (comp_value k.1 k.2.1 k.2.2) 0).1) := by
  induction keys with
  | nil => intro prev rows; simp
  | cons k ks ih =>
    intro prev rows
    obtain ⟨st, ff, c⟩ := k
    by_cases hw : keyWritable (st, ff, c)
    · simp only [List.foldl_cons, emit_step, List.filter_cons]
      rw [if_pos (by simpa [keyWritable] using hw)]
      have hwb : keyWritable (st, ff, c) = true := hw
      simp only [hwb, if_true]
      rw [ih]
      simp [written_err]
    · simp only [List.foldl_cons, emit_step, List.filter_cons]
      rw [if_neg (by simpa [keyWritable] using hw)]
      have hwb : keyWritable (st, ff, c) = false := by simpa using hw
      simp only [hwb, Bool.false_eq_true, if_false]
      rw [ih]

/-- `emit_rows` with `compute_error=False`, in closed form. -/
theorem emit_rows_no_compute (cabsF : CQ → ℚ) (sqrtF : ℚ → ℚ) (d : DataState)
    (comps : List String) :
    emit_rows cabsF sqrtF d false comps
      = ((block_keys d comps).filter keyWritable).map fun k =>
          mkDataRow d k.1 k.2.1 k.2.2 (comp_value k.1 k.2.1 k.2.2)
            ((written_err cabsF sqrtF d false k.1 k.2.1 k.2.2
              (comp_value k.1 k.2.1 k.2.2) 0).1) := by
  unfold emit_rows
  rw [emit_fold_no_compute]
  simp

/-- The cores of the emitted rows of a block. -/
theorem emit_rows_core (cabsF : CQ → ℚ) (sqrtF : ℚ → ℚ) (d : DataState)
    (ce : Bool) (comps : List String) :
    (emit_rows cabsF sqrtF d ce comps).map DataRow.core
      = ((block_keys d comps).filter keyWritable).map
          fun k => coreRow d k.1 k.2.1 k.2.2 := by
  unfold emit_rows
  rw [emit_fold_core]
  simp

/-- Membership in `block_keys`. -/
theorem mem_block_keys (d : DataState) (comps : List String)
    (k : StationD × ℕ × String) :
    k ∈ block_keys d comps ↔
      k.1 ∈ d.stations ∧ k.2.1 < d.period_list.length ∧ k.2.2 ∈ comps := by
  obtain ⟨st, ff, c⟩ := k
  simp only [block_keys, List.mem_flatMap, List.mem_range, List.mem_map,
    Prod.mk.injEq]
  constructor
  · rintro ⟨st', hst', ff', hff', c', hc', h1, h2, h3⟩
    subst h1; subst h2; subst h3
    exact ⟨hst', hff', hc'⟩
  · rintro ⟨h1, h2, h3⟩
    exact ⟨st, h1, ff, h2, c, h3, rfl, rfl, rfl⟩

/-- `write_data_file` for the default inversion mode `'1'`
(`Full_Impedance` + `Full_Vertical_Components`): the two blocks in
order. -/
theorem write_data_file_mode1 (cabsF : CQ → ℚ) (sqrtF : ℚ → ℚ)
    (d : DataState) (ce : Bool) (hmode : d.inv_mode = "1") :
    write_data_file cabsF sqrtF d ce = some (
      (mode_meta_lines d "Full_Impedance" ++
        (emit_rows cabsF sqrtF d ce ["zxx", "zxy", "zyx", "zyy"]).map FileLine.data) ++
      (mode_meta_lines d "Full_Vertical_Components" ++
        (emit_rows cabsF sqrtF d ce ["tx", "ty"]).map FileLine.data)) := by
  simp [write_data_file, hmode, inv_mode_dict, mode_block, inv_comp_dict]

/-- No metadata line is a data line. -/
theorem data_not_mem_meta (d : DataState) (mode : String) (r : DataRow) :
    FileLine.data r ∉ mode_meta_lines d mode := by
  unfold mode_meta_lines
  split
  · simp
  · split <;> simp

/-! ## Claim C4: the egbert error -/

/-- Claim C4: with `error_type='egbert'` and `compute_error`, the error
written for an impedance component is
`sqrt(|Zxy·Zyx|) * error_egbert / 100` (lines 1042-1046): the first
conjunct computes the error, the second shows it never reads the stored
`z_err` tensor, and the third gives the written field (the error column
of the emitted line) when the estimate is a nonzero nonnegative value
(as a real square root is). -/
theorem C4_egbert_error (cabsF : CQ → ℚ) (sqrtF : ℚ → ℚ) (d : DataState)
    (st : StationD) (ff : ℕ) (c : String) (prev : ℚ)
    (het : d.error_type = "egbert")
    (hc : c ∈ (inv_comp_dict "Full_Impedance").getD []) :
    compute_abs_err cabsF sqrtF d st ff c (comp_value st ff c) prev
      = egbert_estimate cabsF sqrtF st ff d.error_egbert
    ∧ (∀ zerr' : List Z2R,
        compute_abs_err cabsF sqrtF d { st with z_err := zerr' } ff c
            (comp_value { st with z_err := zerr' } ff c) prev
          = egbert_estimate cabsF sqrtF st ff d.error_egbert)
    ∧ (egbert_estimate cabsF sqrtF st ff d.error_egbert ≠ 0 →
        0 ≤ egbert_estimate cabsF sqrtF st ff d.error_egbert →
        (mkDataRow d st ff c (comp_value st ff c)
            ((written_err cabsF sqrtF d true st ff c (comp_value st ff c) prev).1)).err
          = egbert_estimate cabsF sqrtF st ff d.error_egbert) := by
  have hest : ∀ st' : StationD, st'.z = st.z →
      compute_abs_err cabsF sqrtF d st' ff c (comp_value st' ff c) prev
        = egbert_estimate cabsF sqrtF st' ff d.error_egbert := by
    intro st' _
    simp only [inv_comp_dict, if_pos rfl, Option.getD_some] at hc
    fin_cases hc <;>
      simp [compute_abs_err, het, egbert_estimate,
        (by decide : firstCharIs "zxx" 't' = false),
        (by decide : firstCharIs "zxy" 't' = false),
        (by decide : firstCharIs "zyx" 't' = false),
        (by decide : firstCharIs "zyy" 't' = false),
        (by decide : firstCharIs "zxx" 'z' = true),
        (by decide : firstCharIs "zxy" 'z' = true),
        (by decide : firstCharIs "zyx" 'z' = true),
        (by decide : firstCharIs "zyy" 'z' = true)]
  have h1 := hest st rfl
  refine ⟨h1, ?_, ?_⟩
  · intro zerr'
    have h2 := hest { st with z_err := zerr' } rfl
    simpa [egbert_estimate, zAt] using h2
  · intro hne hnn
    simp [mkDataRow, written_err, zero_replaced_err, h1, hne, abs_of_nonneg hnn]

/-- Witness fixture for C4: `|Zxy| = |Zyx| = 10`, `error_egbert = 3`;
the station's stored `z_err` is junk (99) to exercise that it is
ignored. -/
def st4 : StationD :=
  { name := "mt01", lat := 0, lon := 0, elev := 0, rel_east := 0, rel_north := 0,
    z := [⟨⟨1, 1⟩, ⟨10, 0⟩, ⟨10, 0⟩, ⟨1, 1⟩⟩],
    z_err := [⟨99, 99, 99, 99⟩],
    tip := [T2.zero], tip_err := [T2R.zero] }

/-- Witness fixture for C4: the `Data` configuration of the spec's
error-floor scenario. -/
def d4 : DataState :=
  { stations := [st4], period_list := [1], units := "[mV/km]/[nT]",
    wave_sign_impedance := '+', wave_sign_tipper := '+', inv_mode := "1",
    formatting := "1", error_type := "egbert", error_floor := 5,
    error_value := 5, error_egbert := 3, error_tipper := 1/20,
    center_position := (0, 0), rotation_angle := 0 }

/-- The complex modulus at the point C4's witness uses:
`|Zxy·Zyx| = |(100, 0)| = 100`. -/
def cabs4 : CQ → ℚ := fun w => if w = ⟨100, 0⟩ then 100 else 0

/-- The square root at the point C4's witness uses: `sqrt 100 = 10`. -/
def sqrt4 : ℚ → ℚ := fun x => if x = 100 then 10 else 0

/-- Witness for C4 at the spec's concrete scenario: the computed and
written error equal `3/100 * sqrt(|10·10|) = 0.3`. -/
theorem C4_witness :
    compute_abs_err cabs4 sqrt4 d4 st4 0 "zxx" (comp_value st4 0 "zxx") 0 = 3/10
    ∧ (mkDataRow d4 st4 0 "zxx" (comp_value st4 0 "zxx")
        ((written_err cabs4 sqrt4 d4 true st4 0 "zxx"
          (comp_value st4 0 "zxx") 0).1)).err = 3/10 := by
  obtain ⟨h1, -, h3⟩ := C4_egbert_error cabs4 sqrt4 d4 st4 0 "zxx" 0 rfl (by decide)
  have he : egbert_estimate cabs4 sqrt4 st4 0 d4.error_egbert = 3/10 := by
    norm_num [egbert_estimate, cabs4, sqrt4, st4, d4, zAt, CQ.mul]
  refine ⟨by rw [h1, he], ?_⟩
  rw [h3 (by rw [he]; norm_num) (by rw [he]; norm_num), he]

/-! ## Claim C5: the zero-error sentinel -/

/-- Claim C5: whenever the `compute_error` path computes an absolute
error of exactly 0 for a data line, the value written in that line's
error column (every emitted line carries `(written_err ...).1`, see
`emit_step`) is `1e3` — or `1e3/796` under Ohm units — never 0, and the
replacement is reported (the diagnostic print of lines 1056-1057,
modelled by the `Bool` component). -/
theorem C5_zero_error_sentinel (cabsF : CQ → ℚ) (sqrtF : ℚ → ℚ)
    (d : DataState) (st : StationD) (ff : ℕ) (c : String) (zz : CQ) (prev : ℚ)
    (h : compute_abs_err cabsF sqrtF d st ff c zz prev = 0) :
    (written_err cabsF sqrtF d true st ff c zz prev).1
      = (if d.units = "ohm" then 1000 / 796 else 1000)
    ∧ (written_err cabsF sqrtF d true st ff c zz prev).1 ≠ 0
    ∧ (mkDataRow d st ff c zz
        ((written_err cabsF sqrtF d true st ff c zz prev).1)).err
      = (if d.units = "ohm" then 1000 / 796 else 1000)
    ∧ (written_err cabsF sqrtF d true st ff c zz prev).2 = true := by
  refine ⟨?_, ?_, ?_, ?_⟩ <;>
    simp [written_err, zero_replaced_err, h, mkDataRow] <;>
    split <;> norm_num

/-- Witness fixture for C5: a station whose impedance entry is present
but whose configured `'value'` error scales a zero modulus. -/
def st5 : StationD :=
  { name := "mt05", lat := 0, lon := 0, elev := 0, rel_east := 0, rel_north := 0,
    z := [⟨⟨1, 1⟩, ⟨1, 1⟩, ⟨1, 1⟩, ⟨1, 1⟩⟩],
    z_err := [Z2R.zero], tip := [T2.zero], tip_err := [T2R.zero] }

/-- Witness fixture for C5. -/
def d5 : DataState :=
  { stations := [st5], period_list := [1], units := "[mV/km]/[nT]",
    wave_sign_impedance := '+', wave_sign_tipper := '+', inv_mode := "1",
    formatting := "1", error_type := "value", error_floor := 5,
    error_value := 5, error_egbert := 3, error_tipper := 1/20,
    center_position := (0, 0), rotation_angle := 0 }

/-- A degenerate modulus primitive producing the zero error. -/
def cabs5 : CQ → ℚ := fun _ => 0

/-- Witness for C5: at a configuration computing error exactly 0, the
written error is 1000, not 0, and the event is reported. -/
theorem C5_witness :
    (written_err cabs5 (fun _ => 0) d5 true st5 0 "zxx"
        (comp_value st5 0 "zxx") 0).1 = 1000
    ∧ (written_err cabs5 (fun _ => 0) d5 true st5 0 "zxx"
        (comp_value st5 0 "zxx") 0).1 ≠ 0
    ∧ (written_err cabs5 (fun _ => 0) d5 true st5 0 "zxx"
        (comp_value st5 0 "zxx") 0).2 = true := by
  obtain ⟨h1, h2, -, h4⟩ :=
    C5_zero_error_sentinel cabs5 (fun _ => 0) d5 st5 0 "zxx"
      (comp_value st5 0 "zxx") 0 (by
        norm_num [compute_abs_err, d5, cabs5,
          (by decide : firstCharIs "zxx" 't' = false),
          (by decide : firstCharIs "zxx" 'z' = true)])
  refine ⟨?_, h2, h4⟩
  rw [h1]
  norm_num [d5]
  decide

/-! ## Claim C6: the Ohm units conversion -/

/-- Fixture for C6: a station whose only writable entry is the tipper
`tx` component `0.5+0.5j` with stored tipper error 7. -/
def stC6 : StationD :=
  { name := "mt06", lat := 1, lon := 2, elev := 3, rel_east := 4, rel_north := 5,
    z := [Z2.zero], z_err := [Z2R.zero],
    tip := [⟨⟨1/2, 1/2⟩, CQ.zero⟩], tip_err := [⟨7, 8⟩] }

/-- Fixture for C6: Ohm units, inversion mode `'1'`. -/
def dC6 : DataState :=
  { stations := [stC6], period_list := [1], units := "ohm",
    wave_sign_impedance := '+', wave_sign_tipper := '+', inv_mode := "1",
    formatting := "1", error_type := "egbert", error_floor := 5,
    error_value := 5, error_egbert := 3, error_tipper := 1/20,
    center_position := (0, 0), rotation_angle := 0 }

/-- The tipper data line `write_data_file` emits for `stC6` with
`compute_error=False`. -/
def rowC6 : DataRow :=
  mkDataRow dC6 stC6 0 "tx" (comp_value stC6 0 "tx")
    ((written_err (fun _ => 0) (fun _ => 0) dC6 false stC6 0 "tx"
      (comp_value stC6 0 "tx") 0).1)

theorem keyWritable_C6_tx : keyWritable (stC6, 0, "tx") = true := by
  have h : comp_value stC6 0 "tx" = ⟨1/2, 1/2⟩ := by
    simp [comp_value, tipAt, stC6]
  simp only [keyWritable, h, writableB]
  norm_num

theorem keyWritable_C6_ty : keyWritable (stC6, 0, "ty") = false := by
  have h : comp_value stC6 0 "ty" = CQ.zero := by
    simp [comp_value, tipAt, stC6]
  simp [keyWritable, h, writableB, CQ.zero]

/-- The tipper block's data lines for the C6 fixture. -/
theorem C6_tip_rows :
    emit_rows (fun _ => 0) (fun _ => 0) dC6 false ["tx", "ty"] = [rowC6] := by
  rw [emit_rows_no_compute]
  have hkeys : block_keys dC6 ["tx", "ty"] = [(stC6, 0, "tx"), (stC6, 0, "ty")] := by
    simp [block_keys, dC6, (by decide : List.range 1 = [0])]
  rw [hkeys]
  simp [keyWritable_C6_tx, keyWritable_C6_ty, rowC6]

/-- Claim C6 as frozen, refuted: under Ohm units the writer divides the
real/imaginary parts of *tipper* lines by 796 as well (the division at
lines 1001-1006 applies to whatever component is being written), so the
tipper value is not "written unchanged": the emitted `TX` line of the
fixture carries `0.5/796`, not the stored `0.5`. -/
theorem C6_counterexample :
    ∃ ls, write_data_file (fun _ => 0) (fun _ => 0) dC6 false = some ls ∧
      FileLine.data rowC6 ∈ ls ∧
      rowC6.com = "TX" ∧
      (comp_value stC6 0 "tx").re = 1/2 ∧
      rowC6.rea = 1/1592 ∧
      rowC6.rea ≠ (comp_value stC6 0 "tx").re := by
  refine ⟨_, write_data_file_mode1 (fun _ => 0) (fun _ => 0) dC6 false rfl,
    ?_, ?_, ?_, ?_, ?_⟩
  · rw [C6_tip_rows]
    simp
  · simp [rowC6, mkDataRow]
    decide
  · simp [comp_value, tipAt, stC6]
  · have h : comp_value stC6 0 "tx" = ⟨1/2, 1/2⟩ := by
      simp [comp_value, tipAt, stC6]
    rw [rowC6, mkDataRow]
    simp [h, dC6]
    norm_num
  · have h : comp_value stC6 0 "tx" = ⟨1/2, 1/2⟩ := by
      simp [comp_value, tipAt, stC6]
    rw [rowC6, mkDataRow]
    simp [h, dC6]
    norm_num

/-- Claim C6, amended: under Ohm units the writer divides the real and
imaginary parts of *every* emitted data line — impedance and tipper
alike — by 796; with `compute_error=False` the stored error is divided
by 796 for impedance components only, a stored tipper error is written
unchanged.  (With `compute_error=True` the errors are recomputed, not
taken from storage, and are not divided — see C5 for the only Ohm
adjustment on that path, the zero sentinel.) -/
theorem C6_ohm_division (cabsF : CQ → ℚ) (sqrtF : ℚ → ℚ) (d : DataState)
    (ls : List FileLine) (r : DataRow)
    (hmode : d.inv_mode = "1") (hunits : d.units = "ohm")
    (hw : write_data_file cabsF sqrtF d false = some ls)
    (hr : FileLine.data r ∈ ls) :
    ∃ st ∈ d.stations, ∃ ff, ff < d.period_list.length ∧ ∃ c,
      (c ∈ (inv_comp_dict "Full_Impedance").getD [] ∨
        c ∈ (inv_comp_dict "Full_Vertical_Components").getD []) ∧
      writableB (comp_value st ff c) = true ∧
      r.rea = (comp_value st ff c).re / 796 ∧
      r.ima = (comp_value st ff c).im / 796 ∧
      r.err = |if firstCharIs c 'z' then comp_stored_err st ff c / 796
               else comp_stored_err st ff c| := by
  rw [write_data_file_mode1 cabsF sqrtF d false hmode] at hw
  have hls : ls =
      (mode_meta_lines d "Full_Impedance" ++
        (emit_rows cabsF sqrtF d false ["zxx", "zxy", "zyx", "zyy"]).map FileLine.data) ++
      (mode_meta_lines d "Full_Vertical_Components" ++
        (emit_rows cabsF sqrtF d false ["tx", "ty"]).map FileLine.data) := by
    injection hw.symm
  subst hls
  have hr' : r ∈ emit_rows cabsF sqrtF d false ["zxx", "zxy", "zyx", "zyy"] ∨
      r ∈ emit_rows cabsF sqrtF d false ["tx", "ty"] := by
    simp only [List.mem_append, List.mem_map] at hr
    rcases hr with ((h | ⟨r', hr', he⟩) | (h | ⟨r', hr', he⟩))
    · exact absurd h (data_not_mem_meta d _ r)
    · injection he with he'; exact Or.inl (he' ▸ hr')
    · exact absurd h (data_not_mem_meta d _ r)
    · injection he with he'; exact Or.inr (he' ▸ hr')
  have main : ∀ comps : List String,
      r ∈ emit_rows cabsF sqrtF d false comps →
      ∃ st ∈ d.stations, ∃ ff, ff < d.period_list.length ∧ ∃ c, c ∈ comps ∧
        writableB (comp_value st ff c) = true ∧
        r.rea = (comp_value st ff c).re / 796 ∧
        r.ima = (comp_value st ff c).im / 796 ∧
        r.err = |if firstCharIs c 'z' then comp_stored_err st ff c / 796
                 else comp_stored_err st ff c| := by
    intro comps hmem
    rw [emit_rows_no_compute] at hmem
    obtain ⟨k, hk, rfl⟩ := List.mem_map.mp hmem
    have hkw : keyWritable k = true := List.of_mem_filter hk
    have hkb : k ∈ block_keys d comps := List.mem_of_mem_filter hk
    obtain ⟨hst, hff, hc⟩ := (mem_block_keys d comps k).mp hkb
    obtain ⟨st, ff, c⟩ := k
    refine ⟨st, hst, ff, hff, c, hc, hkw, ?_, ?_, ?_⟩
    · simp [mkDataRow, hunits]
    · simp [mkDataRow, hunits]
    · simp only [mkDataRow, written_err, hunits]
      by_cases hz : firstCharIs c 'z'
      · simp [hz]
      · simp [hz]
  rcases hr' with h | h
  · obtain ⟨st, hst, ff, hff, c, hc, rest⟩ := main _ h
    exact ⟨st, hst, ff, hff, c, Or.inl (by simpa [inv_comp_dict] using hc), rest⟩
  · obtain ⟨st, hst, ff, hff, c, hc, rest⟩ := main _ h
    exact ⟨st, hst, ff, hff, c, Or.inr (by simpa [inv_comp_dict] using hc), rest⟩

/-- Witness for the amended C6 at the fixture: the tipper line of `dC6`
written with `compute_error=False`. -/
theorem C6_witness :
    ∃ st ∈ dC6.stations, ∃ ff, ff < dC6.period_list.length ∧ ∃ c,
      (c ∈ (inv_comp_dict "Full_Impedance").getD [] ∨
        c ∈ (inv_comp_dict "Full_Vertical_Components").getD []) ∧
      writableB (comp_value st ff c) = true ∧
      rowC6.rea = (comp_value st ff c).re / 796 ∧
      rowC6.ima = (comp_value st ff c).im / 796 ∧
      rowC6.err = |if firstCharIs c 'z' then comp_stored_err st ff c / 796
                   else comp_stored_err st ff c| := by
  refine C6_ohm_division (fun _ => 0) (fun _ => 0) dC6 _ rowC6 rfl rfl
    (write_data_file_mode1 (fun _ => 0) (fun _ => 0) dC6 false rfl) ?_
  rw [C6_tip_rows]
  simp

/-! ## `Model.make_mesh` (modem.py lines 1921-2066), claims C7, C8, C10 -/

/-- Consecutive differences `l[1:] - l[:-1]` (the node widths of lines
2051-2052). -/
def diffs (l : List ℚ) : List ℚ := (l.zip l.tail).map fun p => p.2 - p.1

/-- The 1-significant-figure round-down of line 2028:
`zz - zz % 10 ** floor(log10(zz))`; `Int.log` is `⌊log10⌋` on positive
rationals (the source applies this only to positive depths). -/
def round_1sf (zz : ℚ) : ℚ := zz - qmod zz ((10 : ℚ) ^ (Int.log 10 zz))

/-- The inputs `make_mesh` consumes: the station relative coordinates
(`Model.station_locations`, shared with the `Data` object), the `Data`
attributes it mutates, the mesh parameters, and `log_z` — the output of
`np.logspace(log10(z1_layer), log10(z_target_depth), n_layers - pad_z -
n_airlayers + 1)` at line 2024, a floating primitive taken as a
parameter. -/
structure MeshInput where
  rel_east : List ℚ
  rel_north : List ℚ
  data_rotation : ℚ
  center_EN : ℚ × ℚ
  cell_size_east : ℚ
  cell_size_north : ℚ
  pad_east : ℕ
  pad_north : ℕ
  pad_stretch_h : ℚ
  pad_z : ℕ
  pad_stretch_v : ℚ
  z1_layer : ℚ
  n_airlayers : ℕ
  log_z : List ℚ
deriving DecidableEq

/-- What `make_mesh` computes and mutates. -/
structure MeshOutput where
  grid_east : List ℚ
  grid_north : List ℚ
  grid_z : List ℚ
  nodes_east : List ℚ
  nodes_north : List ℚ
  nodes_z : List ℚ
  sea_level : ℚ
  grid_center : ℚ × ℚ × ℚ
  center_EN : ℚ × ℚ
  rel_east : List ℚ
  rel_north : List ℚ
deriving DecidableEq

/-- The core (unpadded, uncentered) grid of one horizontal axis (lines
1948-1966): bounds = station extrema widened by 1.5 cells, rounded to
the nearest 100 m, then `np.arange` at the cell size. -/
def core_grid (cell : ℚ) (coords : List ℚ) : List ℚ :=
  let lo := np_round_m2 (minL coords - cell * 3 / 2)
  let hi := np_round_m2 (maxL coords + cell * 3 / 2)
  arange lo (hi + cell) cell

/-- The padding loop of lines 1972-1979: `pad` times, prepend/append a
node `np.round(cell * stretch * ii, -2)` beyond the current ends. -/
def pad_grid (cell stretch : ℚ) (pad : ℕ) (g : List ℚ) : List ℚ :=
  (List.range pad).foldl
    (fun g' i =>
      let add := np_round_m2 (cell * stretch * (i + 1 : ℕ))
      (g'.headD 0 - add) :: (g' ++ [g'.getLastD 0 + add]))
    g

/-- One station's node-collision repair (lines 1982-1991): the first
node within 2% of a cell width is nudged 2% of a cell width away from
the station — but only when the difference is strictly nonzero. -/
def repair_pass (cell : ℚ) (g : List ℚ) (s : ℚ) : List ℚ :=
  match g.findIdx? (fun gv => |s - gv| < 2 / 100 * cell) with
  | none => g
  | some i =>
    let gv := g.getD i 0
    if 0 < s - gv then g.set i (gv - 2 / 100 * cell)
    else if s - gv < 0 then g.set i (gv + 2 / 100 * cell)
    else g

/-- The node-collision repair over all stations, in ascending order. -/
def node_repair (cell : ℚ) (stations : List ℚ) (g : List ℚ) : List ℚ :=
  (sortAsc stations).foldl (repair_pass cell) g

/-- The mean of the east core grid — the recentering shift `make_mesh`
applies to `Data.center_position_EN[0]` and the station `rel_east`
coordinates when `Data.rotation_angle == 0` (lines 1967-1970). -/
def core_mean_east (m : MeshInput) : ℚ :=
  meanL (core_grid m.cell_size_east m.rel_east)

/-- The mean of the north core grid (lines 1995-2000). -/
def core_mean_north (m : MeshInput) : ℚ :=
  meanL (core_grid m.cell_size_north m.rel_north)

/-- The station `rel_east` coordinates after the recentering shift of
line 1969 (applied only when `Data.rotation_angle == 0`). -/
def shifted_rel_east (m : MeshInput) : List ℚ :=
  if m.data_rotation = 0 then m.rel_east.map (· + core_mean_east m) else m.rel_east

/-- The station `rel_north` coordinates after the shift of line 1999. -/
def shifted_rel_north (m : MeshInput) : List ℚ :=
  if m.data_rotation = 0 then m.rel_north.map (· + core_mean_north m) else m.rel_north

/-- The east grid after recentering and padding, before the
node-collision repair (lines 1965-1979). -/
def east_grid_prerepair (m : MeshInput) : List ℚ :=
  pad_grid m.cell_size_east m.pad_stretch_h m.pad_east
    ((core_grid m.cell_size_east m.rel_east).map (· - core_mean_east m))

/-- The north grid before the node-collision repair (lines 1995-2009). -/
def north_grid_prerepair (m : MeshInput) : List ℚ :=
  pad_grid m.cell_size_north m.pad_stretch_h m.pad_north
    ((core_grid m.cell_size_north m.rel_north).map (· - core_mean_north m))

/-- The final east node-position axis (after repair, lines 1981-1991). -/
def east_grid_final (m : MeshInput) : List ℚ :=
  node_repair m.cell_size_east (shifted_rel_east m) (east_grid_prerepair m)

/-- The final north node-position axis (lines 2011-2021). -/
def north_grid_final (m : MeshInput) : List ℚ :=
  node_repair m.cell_size_north (shifted_rel_north m) (north_grid_prerepair m)

/-- The vertical thicknesses (lines 2023-2041): the `log_z` values
rounded down to one significant figure, then `pad_z` stretched pads of
the fixed last pre-padding value, prepended by `n_airlayers` air
thicknesses of `z1_layer`. -/
def z_nodes_of (m : MeshInput) : List ℚ :=
  List.replicate m.n_airlayers m.z1_layer ++ m.log_z.map round_1sf ++
    (List.range m.pad_z).map fun i =>
      np_round_m2 ((m.log_z.map round_1sf).getLastD 0 * m.pad_stretch_v * (i + 1 : ℕ))

/-- `Model.make_mesh` (lines 1921-2066).  The horizontal bounds are
computed from the incoming station coordinates; when
`Data.rotation_angle == 0` the survey center is shifted by the core-grid
means and the same means are added to the station relative coordinates;
the grids are recentered, padded, and repaired; the vertical axis is the
partial-sum of `z_nodes_of`; `sea_level` is the air/ground boundary and
`grid_center` the signed half-extents `[north, east, 0]`. -/
def make_mesh (m : MeshInput) : MeshOutput :=
  let ge := east_grid_final m
  let gn := north_grid_final m
  let z_grid := partialSums (z_nodes_of m)
  let east_nodes := diffs ge
  let north_nodes := diffs gn
  { grid_east := ge
    grid_north := gn
    grid_z := z_grid
    nodes_east := east_nodes
    nodes_north := north_nodes
    nodes_z := z_nodes_of m
    sea_level := z_grid.getD m.n_airlayers 0
    grid_center := (-(north_nodes.map (|·|)).sum / 2, -(east_nodes.map (|·|)).sum / 2, 0)
    center_EN :=
      (if m.data_rotation = 0 then m.center_EN.1 - core_mean_east m else m.center_EN.1,
       if m.data_rotation = 0 then m.center_EN.2 - core_mean_north m else m.center_EN.2)
    rel_east := shifted_rel_east m
    rel_north := shifted_rel_north m }

/-! ## Claim C10: the in-place mutation of the `Data` state -/

/-- Claim C10: `make_mesh` shifts the shared `Data` state only when
`Data.rotation_angle` is 0: it subtracts the core east/north grid means
from `Data.center_position_EN` (lines 1968, 1998) and adds the same
means to the station relative coordinates (lines 1969, 1999); with a
nonzero rotation angle neither is changed. -/
theorem C10_make_mesh_data_shift (m : MeshInput) :
    ((make_mesh m).center_EN
      = if m.data_rotation = 0
        then (m.center_EN.1 - core_mean_east m, m.center_EN.2 - core_mean_north m)
        else m.center_EN)
    ∧ ((make_mesh m).rel_east
      = if m.data_rotation = 0
        then m.rel_east.map (· + core_mean_east m) else m.rel_east)
    ∧ ((make_mesh m).rel_north
      = if m.data_rotation = 0
        then m.rel_north.map (· + core_mean_north m) else m.rel_north) := by
  by_cases h : m.data_rotation = 0 <;>
    simp [make_mesh, shifted_rel_east, shifted_rel_north, h]

/-! ## Concrete-evaluation helpers for the rounding primitives -/

theorem floor_eval {q : ℚ} {z : ℤ} (h1 : (z : ℚ) ≤ q) (h2 : q < z + 1) :
    ⌊q⌋ = z :=
  Int.floor_eq_iff.mpr ⟨h1, by exact_mod_cast h2⟩

theorem ceil_eval {q : ℚ} {z : ℤ} (h1 : (z : ℚ) - 1 < q) (h2 : q ≤ z) :
    ⌈q⌉ = z :=
  Int.ceil_eq_iff.mpr ⟨by exact_mod_cast h1, h2⟩

theorem np_round_m2_eval {q : ℚ} {k : ℤ} (hk : ⌊q / 100⌋ = k) :
    np_round_m2 q =
      (if q / 100 - k < 1/2 then (k : ℚ)
       else if 1/2 < q / 100 - k then (k : ℚ) + 1
       else if 2 ∣ k then (k : ℚ) else (k : ℚ) + 1) * 100 := by
  unfold np_round_m2 roundHalfEven
  rw [hk]
  by_cases h1 : q / 100 - (k : ℚ) < 1/2
  · rw [if_pos h1, if_pos h1]
  · rw [if_neg h1, if_neg h1]
    by_cases h2 : 1/2 < q / 100 - (k : ℚ)
    · rw [if_pos h2, if_pos h2]
      push_cast
      ring
    · rw [if_neg h2, if_neg h2]
      by_cases h3 : 2 ∣ k
      · rw [if_pos h3, if_pos h3]
      · rw [if_neg h3, if_neg h3]
        push_cast
        ring

theorem arange_eval {start stop step : ℚ} {n : ℕ}
    (h : ⌈(stop - start) / step⌉ = (n : ℤ)) :
    arange start stop step = (List.range n).map fun i : ℕ => start + step * (i : ℚ) := by
  unfold arange
  rw [h, Int.toNat_natCast]

/-! ## Claim C7: the node-collision repair -/

/-- C7 failing input: a single station at `rel_east = 0` with 100 m
cells, one padding cell, default stretch 1.2.  The station lands exactly
on the grid node at 0. -/
def mC7 : MeshInput :=
  { rel_east := [0], rel_north := [0], data_rotation := 0, center_EN := (0, 0),
    cell_size_east := 100, cell_size_north := 100, pad_east := 1, pad_north := 1,
    pad_stretch_h := 6/5, pad_z := 1, pad_stretch_v := 6/5, z1_layer := 10,
    n_airlayers := 0, log_z := [10, 100, 1000] }

theorem mC7_core : core_grid 100 [(0 : ℚ)] = [-200, -100, 0, 100, 200] := by
  unfold core_grid
  have hmin : minL [(0 : ℚ)] = 0 := rfl
  have hmax : maxL [(0 : ℚ)] = 0 := rfl
  rw [hmin, hmax]
  rw [show ((0 : ℚ) - 100 * 3 / 2) = -150 by norm_num,
    show ((0 : ℚ) + 100 * 3 / 2) = 150 by norm_num]
  rw [show np_round_m2 (-150) = -200 by
        rw [np_round_m2_eval (k := -2) (floor_eval (by norm_num) (by norm_num))]
        norm_num,
      show np_round_m2 150 = 200 by
        rw [np_round_m2_eval (k := 1) (floor_eval (by norm_num) (by norm_num))]
        norm_num]
  rw [arange_eval (n := 5) (ceil_eval (by norm_num) (by norm_num))]
  rw [(by decide : List.range 5 = [0, 1, 2, 3, 4])]
  norm_num

theorem mC7_mean : core_mean_east mC7 = 0 := by
  unfold core_mean_east
  rw [show mC7.cell_size_east = 100 from rfl, show mC7.rel_east = [(0 : ℚ)] from rfl,
    mC7_core]
  norm_num [meanL]

theorem mC7_prerepair :
    east_grid_prerepair mC7 = [-300, -200, -100, 0, 100, 200, 300] := by
  unfold east_grid_prerepair
  rw [show mC7.cell_size_east = 100 from rfl, show mC7.rel_east = [(0 : ℚ)] from rfl,
    show mC7.pad_stretch_h = 6/5 from rfl, show mC7.pad_east = 1 from rfl]
  rw [mC7_core, show core_mean_east mC7 = 0 from mC7_mean]
  rw [show List.map (fun x => x - (0 : ℚ)) [-200, -100, 0, 100, 200]
      = [-200, -100, 0, 100, 200] by norm_num]
  unfold pad_grid
  rw [(by decide : List.range 1 = [0])]
  simp only [List.foldl_cons, List.foldl_nil]
  have harg : (100 : ℚ) * (6/5) * ((0 + 1 : ℕ) : ℚ) = 120 := by push_cast; norm_num
  rw [harg]
  rw [show np_round_m2 120 = 100 by
    rw [np_round_m2_eval (k := 1) (floor_eval (by norm_num) (by norm_num))]
    norm_num]
  norm_num [List.headD, List.getLastD]

theorem mC7_shift : shifted_rel_east mC7 = [(0 : ℚ)] := by
  unfold shifted_rel_east
  rw [if_pos (show mC7.data_rotation = 0 from rfl), mC7_mean,
    show mC7.rel_east = [(0 : ℚ)] from rfl]
  norm_num

theorem mC7_final :
    east_grid_final mC7 = [-300, -200, -100, 0, 100, 200, 300] := by
  unfold east_grid_final node_repair
  rw [mC7_shift, mC7_prerepair, show mC7.cell_size_east = 100 from rfl]
  rw [show sortAsc [(0 : ℚ)] = [0] from rfl]
  simp only [List.foldl_cons, List.foldl_nil]
  unfold repair_pass
  rw [show ((2 : ℚ) / 100 * 100) = 2 by norm_num]
  rw [show (([-300, -200, -100, 0, 100, 200, 300] : List ℚ).findIdx?
      fun gv => |(0 : ℚ) - gv| < 2) = some 3 by norm_num [List.findIdx?_cons]]
  norm_num

/-- Claim C7 at the failing input `mC7` (code bug): the station at
`rel_east = 0` coincides with the node at 0 of the final east axis; the
repair loop of lines 1982-1991 moves a node only when the difference is
strictly nonzero, so the minimum station-to-node distance is 0, not the
claimed ≥ 2% of `cell_size_east` — contradicting the loop's own comment
"need to make sure none of the stations lie on the nodes". -/
theorem C7_station_on_node :
    (make_mesh mC7).rel_east = [0]
    ∧ (0 : ℚ) ∈ (make_mesh mC7).grid_east
    ∧ minL (((make_mesh mC7).grid_east).map fun g => |(0 : ℚ) - g|) = 0
    ∧ minL (((make_mesh mC7).grid_east).map fun g => |(0 : ℚ) - g|)
        < 2 / 100 * mC7.cell_size_east := by
  have hge : (make_mesh mC7).grid_east = [-300, -200, -100, 0, 100, 200, 300] := by
    show east_grid_final mC7 = _
    exact mC7_final
  have hrel : (make_mesh mC7).rel_east = [0] := by
    show shifted_rel_east mC7 = _
    exact mC7_shift
  refine ⟨hrel, ?_, ?_, ?_⟩
  · rw [hge]; norm_num
  · rw [hge]; norm_num [minL]
  · rw [hge]
    rw [show mC7.cell_size_east = 100 from rfl]
    norm_num [minL]

/-! ## Claim C8: strict monotonicity of the grid axes -/

theorem sorted_map_range (f : ℕ → ℚ) (n : ℕ)
    (hf : ∀ i j, i < j → j < n → f i < f j) :
    List.Sorted (· < ·) ((List.range n).map f) := by
  refine List.pairwise_map.mpr ?_
  refine List.Pairwise.imp_of_mem ?_ (List.pairwise_lt_range n)
  intro a b ha hb hab
  exact hf a b hab (List.mem_range.mp hb)

theorem sorted_arange (start stop step : ℚ) (hstep : 0 < step) :
    List.Sorted (· < ·) (arange start stop step) := by
  unfold arange
  refine sorted_map_range _ _ ?_
  intro i j hij _
  have : (i : ℚ) < j := by exact_mod_cast hij
  nlinarith

theorem sorted_map_sub (l : List ℚ) (m : ℚ) (h : List.Sorted (· < ·) l) :
    List.Sorted (· < ·) (l.map (· - m)) := by
  refine List.pairwise_map.mpr (h.imp ?_)
  intro a b hab
  simpa using hab

theorem sorted_headD_le (l : List ℚ) (h : List.Sorted (· < ·) l)
    (x : ℚ) (hx : x ∈ l) : l.headD 0 ≤ x := by
  cases l with
  | nil => cases hx
  | cons a t =>
    rcases List.mem_cons.mp hx with rfl | hxt
    · exact le_refl _
    · exact le_of_lt (List.rel_of_sorted_cons h x hxt)

theorem sorted_le_getLastD (l : List ℚ) :
    List.Sorted (· < ·) l → ∀ x ∈ l, x ≤ l.getLastD 0 := by
  induction l with
  | nil => intro _ x hx; cases hx
  | cons a t ih =>
    intro h x hx
    cases t with
    | nil =>
      rcases List.mem_cons.mp hx with rfl | hxt
      · simp [List.getLastD]
      · cases hxt
    | cons b t' =>
      rw [show (a :: b :: t').getLastD 0 = (b :: t').getLastD 0 by
        simp [List.getLastD_cons]]
      rcases List.mem_cons.mp hx with rfl | hxt
      · have hb : b ∈ b :: t' := List.mem_cons_self b t'
        exact le_trans (le_of_lt (List.rel_of_sorted_cons h b hb))
          (ih (List.Sorted.of_cons h) b hb)
      · exact ih (List.Sorted.of_cons h) x hxt

theorem getLastD_mem (l : List ℚ) (h : l ≠ []) : l.getLastD 0 ∈ l := by
  induction l with
  | nil => exact absurd rfl h
  | cons a t ih =>
    cases t with
    | nil => simp
    | cons b t' =>
      rw [show (a :: b :: t').getLastD 0 = (b :: t').getLastD 0 by
        simp [List.getLastD_cons]]
      exact List.mem_cons_of_mem a (ih (by simp))

theorem sorted_pad_step (g : List ℚ) (hs : List.Sorted (· < ·) g)
    (add : ℚ) (hadd : 0 < add) :
    List.Sorted (· < ·) ((g.headD 0 - add) :: (g ++ [g.getLastD 0 + add])) := by
  refine List.sorted_cons.mpr ⟨?_, ?_⟩
  · intro b hb
    rcases List.mem_append.mp hb with hbg | hbe
    · calc g.headD 0 - add < g.headD 0 := by linarith
        _ ≤ b := sorted_headD_le g hs b hbg
    · rcases List.mem_singleton.mp hbe with rfl
      cases g with
      | nil => simpa using hadd
      | cons a t =>
        have h1 : (a :: t).headD 0 ≤ (a :: t).getLastD 0 :=
          sorted_headD_le _ hs _ (getLastD_mem _ (by simp))
        linarith
  · refine List.pairwise_append.mpr ⟨hs, List.sorted_singleton _, ?_⟩
    intro a ha b hb
    rcases List.mem_singleton.mp hb with rfl
    calc a ≤ g.getLastD 0 := sorted_le_getLastD g hs a ha
      _ < g.getLastD 0 + add := by linarith

theorem pad_grid_succ (cell stretch : ℚ) (n : ℕ) (g : List ℚ) :
    pad_grid cell stretch (n + 1) g =
      ((pad_grid cell stretch n g).headD 0
          - np_round_m2 (cell * stretch * (n + 1 : ℕ)))
        :: (pad_grid cell stretch n g ++
          [(pad_grid cell stretch n g).getLastD 0
            + np_round_m2 (cell * stretch * (n + 1 : ℕ))]) := by
  unfold pad_grid
  rw [List.range_succ, List.foldl_append]
  simp

theorem sorted_pad_grid (cell stretch : ℚ) (pad : ℕ) (g : List ℚ)
    (hs : List.Sorted (· < ·) g)
    (hadd : ∀ i < pad, 0 < np_round_m2 (cell * stretch * (i + 1 : ℕ))) :
    List.Sorted (· < ·) (pad_grid cell stretch pad g) := by
  induction pad with
  | zero => simpa [pad_grid] using hs
  | succ n ih =>
    rw [pad_grid_succ]
    exact sorted_pad_step _ (ih fun i hi => hadd i (Nat.lt_succ_of_lt hi)) _
      (hadd n (Nat.lt_succ_self n))

theorem mem_insertAsc (x y : ℚ) (l : List ℚ) :
    x ∈ insertAsc y l ↔ x = y ∨ x ∈ l := by
  induction l with
  | nil => simp [insertAsc]
  | cons a t ih =>
    unfold insertAsc
    split
    · simp
    · simp only [List.mem_cons, ih]
      tauto

theorem mem_sortAsc (x : ℚ) (l : List ℚ) : x ∈ sortAsc l ↔ x ∈ l := by
  induction l with
  | nil => simp [sortAsc]
  | cons a t ih =>
    show x ∈ insertAsc a (sortAsc t) ↔ _
    simp only [mem_insertAsc, ih, List.mem_cons]

theorem repair_pass_noop (cell : ℚ) (g : List ℚ) (s : ℚ)
    (h : ∀ gv ∈ g, ¬(|s - gv| < 2 / 100 * cell)) : repair_pass cell g s = g := by
  unfold repair_pass
  have hnone : (g.findIdx? fun gv => |s - gv| < 2 / 100 * cell) = none := by
    rw [List.findIdx?_eq_none_iff]
    intro gv hgv
    simpa using h gv hgv
  rw [hnone]

theorem node_repair_noop (cell : ℚ) (stations g : List ℚ)
    (h : ∀ s ∈ stations, ∀ gv ∈ g, ¬(|s - gv| < 2 / 100 * cell)) :
    node_repair cell stations g = g := by
  unfold node_repair
  have haux : ∀ l : List ℚ, (∀ s ∈ l, ∀ gv ∈ g, ¬(|s - gv| < 2 / 100 * cell)) →
      l.foldl (repair_pass cell) g = g := by
    intro l
    induction l with
    | nil => intro _; rfl
    | cons a t ih =>
      intro hl
      rw [List.foldl_cons, repair_pass_noop cell g a (hl a (List.mem_cons_self a t))]
      exact ih fun s hs => hl s (List.mem_cons_of_mem a hs)
  exact haux _ fun s hs => h s ((mem_sortAsc s stations).mp hs)

theorem sorted_partialSums (l : List ℚ) (h : ∀ x ∈ l, 0 < x) :
    List.Sorted (· < ·) (partialSums l) := by
  have hchain : List.Chain' (· < ·) (partialSums l) := by
    unfold partialSums
    rw [List.chain'_map]
    rw [show l.length + 1 = Nat.succ l.length from rfl, List.chain'_range_succ]
    intro m hm
    rw [List.take_succ, List.sum_append]
    have hg : l[m]? = some l[m] := List.getElem?_eq_getElem hm
    rw [hg]
    have : 0 < l[m] := h _ (List.getElem_mem hm)
    simp only [Option.toList_some, List.sum_cons, List.sum_nil]
    linarith
  exact List.chain'_iff_pairwise.mp hchain

/-- Claim C8, amended: after `make_mesh`, all three node-position axes
are strictly increasing *provided* the horizontal padding increments
`np.round(cell * stretch * ii, -2)` are positive (they round to 0 for
cell sizes below ~42 m, duplicating nodes), no station falls within the
2%-of-a-cell repair window of a node (the collision repair can move
nodes, in degenerate configurations onto other stations or nodes), and
every vertical thickness — air layers, rounded `logspace` values and
vertical pads — is positive. -/
theorem C8_strictly_increasing (m : MeshInput)
    (he_cell : 0 < m.cell_size_east) (hn_cell : 0 < m.cell_size_north)
    (he_pad : ∀ i < m.pad_east,
      0 < np_round_m2 (m.cell_size_east * m.pad_stretch_h * (i + 1 : ℕ)))
    (hn_pad : ∀ i < m.pad_north,
      0 < np_round_m2 (m.cell_size_north * m.pad_stretch_h * (i + 1 : ℕ)))
    (he_rep : ∀ s ∈ shifted_rel_east m, ∀ gv ∈ east_grid_prerepair m,
      ¬(|s - gv| < 2 / 100 * m.cell_size_east))
    (hn_rep : ∀ s ∈ shifted_rel_north m, ∀ gv ∈ north_grid_prerepair m,
      ¬(|s - gv| < 2 / 100 * m.cell_size_north))
    (hz : ∀ t ∈ z_nodes_of m, 0 < t) :
    List.Sorted (· < ·) (make_mesh m).grid_east
    ∧ List.Sorted (· < ·) (make_mesh m).grid_north
    ∧ List.Sorted (· < ·) (make_mesh m).grid_z := by
  refine ⟨?_, ?_, ?_⟩
  · show List.Sorted (· < ·) (east_grid_final m)
    unfold east_grid_final
    rw [node_repair_noop _ _ _ he_rep]
    unfold east_grid_prerepair
    exact sorted_pad_grid _ _ _ _
      (sorted_map_sub _ _ (by unfold core_grid; exact sorted_arange _ _ _ he_cell))
      he_pad
  · show List.Sorted (· < ·) (north_grid_final m)
    unfold north_grid_final
    rw [node_repair_noop _ _ _ hn_rep]
    unfold north_grid_prerepair
    exact sorted_pad_grid _ _ _ _
      (sorted_map_sub _ _ (by unfold core_grid; exact sorted_arange _ _ _ hn_cell))
      hn_pad
  · show List.Sorted (· < ·) (partialSums (z_nodes_of m))
    exact sorted_partialSums _ hz

/-- C8 counterexample input: a single station at 0 with 20 m east cells;
the padding increment `np.round(20*1.2, -2)` rounds to 0, so the padded
east grid repeats the node 0. -/
def mC8x : MeshInput :=
  { rel_east := [0], rel_north := [0], data_rotation := 0, center_EN := (0, 0),
    cell_size_east := 20, cell_size_north := 100, pad_east := 1, pad_north := 1,
    pad_stretch_h := 6/5, pad_z := 1, pad_stretch_v := 6/5, z1_layer := 10,
    n_airlayers := 0, log_z := [10, 100, 1000] }

theorem mC8x_core : core_grid 20 [(0 : ℚ)] = [0] := by
  unfold core_grid
  rw [show minL [(0 : ℚ)] = 0 from rfl, show maxL [(0 : ℚ)] = 0 from rfl]
  rw [show ((0 : ℚ) - 20 * 3 / 2) = -30 by norm_num,
    show ((0 : ℚ) + 20 * 3 / 2) = 30 by norm_num]
  rw [show np_round_m2 (-30) = 0 by
        rw [np_round_m2_eval (k := -1) (floor_eval (by norm_num) (by norm_num))]
        norm_num,
      show np_round_m2 30 = 0 by
        rw [np_round_m2_eval (k := 0) (floor_eval (by norm_num) (by norm_num))]
        norm_num]
  rw [arange_eval (n := 1) (ceil_eval (by norm_num) (by norm_num))]
  rw [(by decide : List.range 1 = [0])]
  norm_num

theorem mC8x_mean : core_mean_east mC8x = 0 := by
  unfold core_mean_east
  rw [show mC8x.cell_size_east = 20 from rfl,
    show mC8x.rel_east = [(0 : ℚ)] from rfl, mC8x_core]
  norm_num [meanL]

theorem mC8x_prerepair : east_grid_prerepair mC8x = [0, 0, 0] := by
  unfold east_grid_prerepair
  rw [show mC8x.cell_size_east = 20 from rfl,
    show mC8x.rel_east = [(0 : ℚ)] from rfl,
    show mC8x.pad_stretch_h = 6/5 from rfl, show mC8x.pad_east = 1 from rfl]
  rw [mC8x_core, show core_mean_east mC8x = 0 from mC8x_mean]
  rw [show List.map (fun x => x - (0 : ℚ)) [0] = [0] by norm_num]
  unfold pad_grid
  rw [(by decide : List.range 1 = [0])]
  simp only [List.foldl_cons, List.foldl_nil]
  have harg : (20 : ℚ) * (6/5) * ((0 + 1 : ℕ) : ℚ) = 24 := by push_cast; norm_num
  rw [harg]
  rw [show np_round_m2 24 = 0 by
    rw [np_round_m2_eval (k := 0) (floor_eval (by norm_num) (by norm_num))]
    norm_num]
  norm_num [List.headD, List.getLastD]

theorem mC8x_final : east_grid_final mC8x = [0, 0, 0] := by
  unfold east_grid_final node_repair
  have hsh : shifted_rel_east mC8x = [(0 : ℚ)] := by
    unfold shifted_rel_east
    rw [if_pos (show mC8x.data_rotation = 0 from rfl), mC8x_mean,
      show mC8x.rel_east = [(0 : ℚ)] from rfl]
    norm_num
  rw [hsh, mC8x_prerepair, show mC8x.cell_size_east = 20 from rfl]
  rw [show sortAsc [(0 : ℚ)] = [0] from rfl]
  simp only [List.foldl_cons, List.foldl_nil]
  unfold repair_pass
  rw [show ((2 : ℚ) / 100 * 20) = 2/5 by norm_num]
  rw [show (([0, 0, 0] : List ℚ).findIdx? fun gv => |(0 : ℚ) - gv| < 2/5)
      = some 0 by norm_num [List.findIdx?_cons]]
  norm_num

/-- Claim C8 as frozen, refuted: `make_mesh` completes on `mC8x` (one
station at 0, 20 m east cells) but its east axis is `[0, 0, 0]` — the
padding increment `np.round(20 * 1.2, -2)` is 0, duplicating the node —
so the grid is not strictly increasing. -/
theorem C8_counterexample :
    (make_mesh mC8x).grid_east = [0, 0, 0]
    ∧ ¬ List.Sorted (· < ·) (make_mesh mC8x).grid_east := by
  have hge : (make_mesh mC8x).grid_east = [0, 0, 0] := by
    show east_grid_final mC8x = _
    exact mC8x_final
  refine ⟨hge, ?_⟩
  rw [hge]
  intro hs
  exact absurd (List.rel_of_sorted_cons hs 0 (by simp)) (by norm_num)

/-- C8 witness input: one station at 60 m, 100 m cells, two padding
cells, two air layers, `logspace` depths `[10, 100, 1000]`, one vertical
pad. -/
def mC8w : MeshInput :=
  { rel_east := [60], rel_north := [60], data_rotation := 0, center_EN := (0, 0),
    cell_size_east := 100, cell_size_north := 100, pad_east := 2, pad_north := 2,
    pad_stretch_h := 6/5, pad_z := 1, pad_stretch_v := 6/5, z1_layer := 10,
    n_airlayers := 2, log_z := [10, 100, 1000] }

theorem mC8w_core : core_grid 100 [(60 : ℚ)] = [-100, 0, 100, 200] := by
  unfold core_grid
  rw [show minL [(60 : ℚ)] = 60 from rfl, show maxL [(60 : ℚ)] = 60 from rfl]
  rw [show ((60 : ℚ) - 100 * 3 / 2) = -90 by norm_num,
    show ((60 : ℚ) + 100 * 3 / 2) = 210 by norm_num]
  rw [show np_round_m2 (-90) = -100 by
        rw [np_round_m2_eval (k := -1) (floor_eval (by norm_num) (by norm_num))]
        norm_num,
      show np_round_m2 210 = 200 by
        rw [np_round_m2_eval (k := 2) (floor_eval (by norm_num) (by norm_num))]
        norm_num]
  rw [arange_eval (n := 4) (ceil_eval (by norm_num) (by norm_num))]
  rw [(by decide : List.range 4 = [0, 1, 2, 3])]
  norm_num

theorem mC8w_meanE : core_mean_east mC8w = 50 := by
  unfold core_mean_east
  rw [show mC8w.cell_size_east = 100 from rfl,
    show mC8w.rel_east = [(60 : ℚ)] from rfl, mC8w_core]
  norm_num [meanL]

theorem mC8w_meanN : core_mean_north mC8w = 50 := by
  unfold core_mean_north
  rw [show mC8w.cell_size_north = 100 from rfl,
    show mC8w.rel_north = [(60 : ℚ)] from rfl, mC8w_core]
  norm_num [meanL]

theorem mC8w_pad :
    pad_grid 100 (6/5) 2 [(-150 : ℚ), -50, 50, 150]
      = [-450, -250, -150, -50, 50, 150, 250, 450] := by
  unfold pad_grid
  rw [(by decide : List.range 2 = [0, 1])]
  simp only [List.foldl_cons, List.foldl_nil]
  have h1 : (100 : ℚ) * (6/5) * ((0 + 1 : ℕ) : ℚ) = 120 := by push_cast; norm_num
  have h2 : (100 : ℚ) * (6/5) * ((1 + 1 : ℕ) : ℚ) = 240 := by push_cast; norm_num
  rw [h1]
  rw [show np_round_m2 120 = 100 by
    rw [np_round_m2_eval (k := 1) (floor_eval (by norm_num) (by norm_num))]
    norm_num]
  norm_num [List.headD, List.getLastD]
  rw [show np_round_m2 240 = 200 by
    rw [np_round_m2_eval (k := 2) (floor_eval (by norm_num) (by norm_num))]
    norm_num]
  norm_num

theorem mC8w_preE :
    east_grid_prerepair mC8w = [-450, -250, -150, -50, 50, 150, 250, 450] := by
  unfold east_grid_prerepair
  rw [show mC8w.cell_size_east = 100 from rfl,
    show mC8w.rel_east = [(60 : ℚ)] from rfl,
    show mC8w.pad_stretch_h = 6/5 from rfl, show mC8w.pad_east = 2 from rfl]
  rw [mC8w_core, show core_mean_east mC8w = 50 from mC8w_meanE]
  rw [show List.map (fun x => x - (50 : ℚ)) [-100, 0, 100, 200]
      = [-150, -50, 50, 150] by norm_num]
  exact mC8w_pad

theorem mC8w_preN :
    north_grid_prerepair mC8w = [-450, -250, -150, -50, 50, 150, 250, 450] := by
  unfold north_grid_prerepair
  rw [show mC8w.cell_size_north = 100 from rfl,
    show mC8w.rel_north = [(60 : ℚ)] from rfl,
    show mC8w.pad_stretch_h = 6/5 from rfl, show mC8w.pad_north = 2 from rfl]
  rw [mC8w_core, show core_mean_north mC8w = 50 from mC8w_meanN]
  rw [show List.map (fun x => x - (50 : ℚ)) [-100, 0, 100, 200]
      = [-150, -50, 50, 150] by norm_num]
  exact mC8w_pad

theorem mC8w_shE : shifted_rel_east mC8w = [(110 : ℚ)] := by
  unfold shifted_rel_east
  rw [if_pos (show mC8w.data_rotation = 0 from rfl), mC8w_meanE,
    show mC8w.rel_east = [(60 : ℚ)] from rfl]
  norm_num

theorem mC8w_shN : shifted_rel_north mC8w = [(110 : ℚ)] := by
  unfold shifted_rel_north
  rw [if_pos (show mC8w.data_rotation = 0 from rfl), mC8w_meanN,
    show mC8w.rel_north = [(60 : ℚ)] from rfl]
  norm_num

theorem round_1sf_10 : round_1sf 10 = 10 := by
  unfold round_1sf qmod
  rw [show Int.log 10 (10 : ℚ) = 1 by
    rw [show (10 : ℚ) = ((10 : ℕ) : ℚ) by norm_num, Int.log_natCast,
      Nat.log_eq_of_pow_le_of_lt_pow (m := 1) (by norm_num) (by norm_num)]
    norm_num]
  rw [show ((10 : ℚ) ^ (1 : ℤ)) = 10 by norm_num]
  rw [show ⌊(10 : ℚ) / 10⌋ = 1 from floor_eval (by norm_num) (by norm_num)]
  norm_num

theorem round_1sf_100 : round_1sf 100 = 100 := by
  unfold round_1sf qmod
  rw [show Int.log 10 (100 : ℚ) = 2 by
    rw [show (100 : ℚ) = ((100 : ℕ) : ℚ) by norm_num, Int.log_natCast,
      Nat.log_eq_of_pow_le_of_lt_pow (m := 2) (by norm_num) (by norm_num)]
    norm_num]
  rw [show ((10 : ℚ) ^ (2 : ℤ)) = 100 by norm_num]
  rw [show ⌊(100 : ℚ) / 100⌋ = 1 from floor_eval (by norm_num) (by norm_num)]
  norm_num

theorem round_1sf_1000 : round_1sf 1000 = 1000 := by
  unfold round_1sf qmod
  rw [show Int.log 10 (1000 : ℚ) = 3 by
    rw [show (1000 : ℚ) = ((1000 : ℕ) : ℚ) by norm_num, Int.log_natCast,
      Nat.log_eq_of_pow_le_of_lt_pow (m := 3) (by norm_num) (by norm_num)]
    norm_num]
  rw [show ((10 : ℚ) ^ (3 : ℤ)) = 1000 by norm_num]
  rw [show ⌊(1000 : ℚ) / 1000⌋ = 1 from floor_eval (by norm_num) (by norm_num)]
  norm_num

theorem mC8w_znodes : z_nodes_of mC8w = [10, 10, 10, 100, 1000, 1200] := by
  unfold z_nodes_of
  rw [show mC8w.log_z = [(10 : ℚ), 100, 1000] from rfl,
    show mC8w.pad_z = 1 from rfl, show mC8w.pad_stretch_v = 6/5 from rfl,
    show mC8w.n_airlayers = 2 from rfl, show mC8w.z1_layer = (10 : ℚ) from rfl]
  rw [show List.map round_1sf [(10 : ℚ), 100, 1000] = [10, 100, 1000] by
    simp [round_1sf_10, round_1sf_100, round_1sf_1000]]
  rw [(by decide : List.range 1 = [0])]
  simp only [List.map_cons, List.map_nil]
  have harg : ([(10 : ℚ), 100, 1000].getLastD 0) * (6/5) * ((0 + 1 : ℕ) : ℚ)
      = 1200 := by
    rw [show ([(10 : ℚ), 100, 1000].getLastD 0) = 1000 by simp [List.getLastD_cons]]
    push_cast
    norm_num
  rw [harg]
  rw [show np_round_m2 1200 = 1200 by
    rw [np_round_m2_eval (k := 12) (floor_eval (by norm_num) (by norm_num))]
    norm_num]
  rfl

/-- Witness for the amended C8 at `mC8w`: all hypotheses hold and the
three axes are strictly increasing. -/
theorem C8_witness :
    List.Sorted (· < ·) (make_mesh mC8w).grid_east
    ∧ List.Sorted (· < ·) (make_mesh mC8w).grid_north
    ∧ List.Sorted (· < ·) (make_mesh mC8w).grid_z := by
  have hpad : ∀ i < 2,
      0 < np_round_m2 ((100 : ℚ) * (6/5) * ((i + 1 : ℕ) : ℚ)) := by
    intro i hi
    rcases (by omega : i = 0 ∨ i = 1) with rfl | rfl
    · rw [show ((100 : ℚ) * (6/5) * ((0 + 1 : ℕ) : ℚ)) = 120 by push_cast; norm_num]
      rw [show np_round_m2 120 = 100 by
        rw [np_round_m2_eval (k := 1) (floor_eval (by norm_num) (by norm_num))]
        norm_num]
      norm_num
    · rw [show ((100 : ℚ) * (6/5) * ((1 + 1 : ℕ) : ℚ)) = 240 by push_cast; norm_num]
      rw [show np_round_m2 240 = 200 by
        rw [np_round_m2_eval (k := 2) (floor_eval (by norm_num) (by norm_num))]
        norm_num]
      norm_num
  have hrep : ∀ s ∈ [(110 : ℚ)],
      ∀ gv ∈ [(-450 : ℚ), -250, -150, -50, 50, 150, 250, 450],
      ¬(|s - gv| < 2 / 100 * (100 : ℚ)) := by
    intro s hs gv hgv
    rcases List.mem_singleton.mp hs with rfl
    fin_cases hgv <;> norm_num [abs_lt]
  refine C8_strictly_increasing mC8w (by norm_num [mC8w]) (by norm_num [mC8w]) ?_ ?_ ?_ ?_ ?_
  · intro i hi
    exact hpad i hi
  · intro i hi
    exact hpad i hi
  · rw [mC8w_shE, mC8w_preE]
    exact fun s hs gv hgv => hrep s hs gv hgv
  · rw [mC8w_shN, mC8w_preN]
    exact fun s hs gv hgv => hrep s hs gv hgv
  · rw [mC8w_znodes]
    intro t ht
    fin_cases ht <;> norm_num

/-! ## `Model.add_topography` (modem.py lines 2107-2166) and
`assign_resistivity_from_surfacedata` (lines 2266-2304), claim C9 -/

/-- The model state `add_topography` consumes: cell counts, the vertical
node axis, the air-layer count, the current sea level, the resistivity
volume (indexed `[north j, east i, vertical k]`) and the interpolated
topography surface (`surface_dict['topography']`, positive up). -/
structure TopoInput where
  nN : ℕ
  nE : ℕ
  grid_z : List ℚ
  n_airlayers : ℕ
  sea_level : ℚ
  res_model : ℕ → ℕ → ℕ → ℚ
  surface : ℕ → ℕ → ℚ

/-- The state after `add_topography`: the rebuilt vertical axis, the new
sea level, the rewritten resistivity volume and the covariance mask
(which the source stores north-reversed, line 2165). -/
structure TopoOutput where
  grid_z : List ℚ
  sea_level : ℚ
  res_model : ℕ → ℕ → ℕ → ℚ
  covariance_mask : ℕ → ℕ → ℕ → ℚ

/-- `np.amax(surface)` over the model columns. -/
def amax_surface (t : TopoInput) : ℚ :=
  maxL ((List.range t.nN).flatMap fun j =>
    (List.range t.nE).map fun i => t.surface j i)

/-- The air-layer cell size of lines 2121-2123:
`ceil(amax(topography) / n_airlayers)`. -/
def air_cell_size (t : TopoInput) : ℚ :=
  (⌈amax_surface t / (t.n_airlayers : ℚ)⌉ : ℤ)

/-- The rebuilt vertical axis of lines 2126-2129 (`n_airlayers > 0`):
the top `n_airlayers + 1` nodes become `linspace(0, n_air, n_air+1)*cs`
and the deeper nodes are shifted by `add_z` so the ground spacing is
kept. -/
def adjusted_grid_z (t : TopoInput) : List ℚ :=
  if 0 < t.n_airlayers then
    ((List.range (t.n_airlayers + 1)).map fun i : ℕ => (i : ℚ) * air_cell_size t) ++
      (t.grid_z.drop (t.n_airlayers + 1)).map
        (· + ((t.n_airlayers : ℚ) * air_cell_size t - t.grid_z.getD t.n_airlayers 0))
  else t.grid_z

/-- Cell-center depths: `np.mean([grid_z[:-1], grid_z[1:]], axis=0)`
(lines 2148, 2280). -/
def gcz_of (gz : List ℚ) (k : ℕ) : ℚ := (gz.getD k 0 + gz.getD (k + 1) 0) / 2

/-- The sea level after `add_topography` (line 2135): the air/ground
boundary of the rebuilt axis; unchanged when there are no air layers. -/
def topo_sea_level (t : TopoInput) : ℚ :=
  if 0 < t.n_airlayers then (adjusted_grid_z t).getD t.n_airlayers 0
  else t.sea_level

/-- The resistivity after the air assignment of line 2138
(`assign_resistivity_from_surfacedata('topography', air_res, 'above')`,
lines 2266-2304): with air layers present, every cell with
`0 < gcz ≤ sea_level - surface` becomes air (for the topography surface
the `topo` guard of line 2290 is the zero array); without air layers the
assignment is skipped (line 2140). -/
def topo_res_air (t : TopoInput) (air_res : ℚ) : ℕ → ℕ → ℕ → ℚ :=
  fun j i k =>
    if 0 < t.n_airlayers then
      if gcz_of (adjusted_grid_z t) k ≤ topo_sea_level t - t.surface j i ∧
          0 < gcz_of (adjusted_grid_z t) k then air_res
      else t.res_model j i k
    else t.res_model j i k

/-- The covariance mask before the north reversal (lines 2144-2163):
fresh ones, 0 where `gcz <= sea_level - surface`, overwritten by 9 where
additionally `gcz > sea_level`. -/
def topo_mask_pre (t : TopoInput) : ℕ → ℕ → ℕ → ℚ :=
  fun j i k =>
    if topo_sea_level t < gcz_of (adjusted_grid_z t) k ∧
        gcz_of (adjusted_grid_z t) k ≤ topo_sea_level t - t.surface j i then 9
    else if gcz_of (adjusted_grid_z t) k ≤ topo_sea_level t - t.surface j i then 0
    else 1

/-- `Model.add_topography` (lines 2107-2166).  With air layers present,
the vertical axis is rebuilt and the sea level moved to the air/ground
boundary; the air cells are painted; then cells with
`sea_level < gcz ≤ sea_level - surface` get the sea resistivity and mask
code 9; finally the mask is stored reversed along the north axis
(line 2165). -/
def add_topography (t : TopoInput) (air_res sea_res : ℚ) : TopoOutput :=
  { grid_z := adjusted_grid_z t
    sea_level := topo_sea_level t
    res_model := fun j i k =>
      if topo_sea_level t < gcz_of (adjusted_grid_z t) k ∧
          gcz_of (adjusted_grid_z t) k ≤ topo_sea_level t - t.surface j i
      then sea_res
      else topo_res_air t air_res j i k
    covariance_mask := fun j i k => topo_mask_pre t (t.nN - 1 - j) i k }

theorem adjusted_grid_z_nonneg (t : TopoInput)
    (hair : 0 < t.n_airlayers)
    (hsorted : List.Sorted (· < ·) t.grid_z)
    (hlen : t.n_airlayers < t.grid_z.length)
    (hcs : 0 < air_cell_size t) :
    ∀ k < (adjusted_grid_z t).length,
      0 ≤ (adjusted_grid_z t).getD k 0 ∧
      (1 ≤ k → 0 < (adjusted_grid_z t).getD k 0) := by
  intro k hk
  unfold adjusted_grid_z at hk ⊢
  rw [if_pos hair] at hk ⊢
  set n := t.n_airlayers with hn
  set cs := air_cell_size t with hcs'
  set A := (List.range (n + 1)).map fun i : ℕ => (i : ℚ) * cs with hA
  set B := (t.grid_z.drop (n + 1)).map (· + ((n : ℚ) * cs - t.grid_z.getD n 0))
    with hB
  have hAlen : A.length = n + 1 := by simp [hA]
  by_cases hcase : k < n + 1
  · have hkA : k < A.length := by omega
    rw [List.getD_append _ _ _ _ hkA]
    have hval : A.getD k 0 = (k : ℚ) * cs := by
      rw [List.getD_eq_getElem _ _ hkA]
      simp [hA]
    rw [hval]
    constructor
    · positivity
    · intro h1
      have : (1 : ℚ) ≤ (k : ℚ) := by exact_mod_cast h1
      nlinarith
  · have hge : A.length ≤ k := by omega
    rw [List.getD_append_right _ _ _ _ hge]
    have hkB : k - A.length < B.length := by
      rw [List.length_append] at hk
      omega
    rw [List.getD_eq_getElem _ _ hkB]
    have hBlen : B.length = t.grid_z.length - (n + 1) := by simp [hB]
    have hidx : n + 1 + (k - A.length) < t.grid_z.length := by omega
    have hval : B[k - A.length] =
        t.grid_z[n + 1 + (k - A.length)] + ((n : ℚ) * cs - t.grid_z.getD n 0) := by
      simp [hB]
    rw [hval]
    have hbn : n < t.grid_z.length := by omega
    have hnd : t.grid_z.getD n 0 = t.grid_z[n] :=
      List.getD_eq_getElem _ _ hbn
    have hmono : t.grid_z[n] < t.grid_z[n + 1 + (k - A.length)] := by
      have := List.pairwise_iff_get.mp hsorted
        ⟨n, by omega⟩ ⟨n + 1 + (k - A.length), hidx⟩ (by simp; omega)
      simpa using this
    have hncs : 0 < (n : ℚ) * cs := by
      have : (1 : ℚ) ≤ (n : ℚ) := by exact_mod_cast hair
      nlinarith
    rw [hnd]
    constructor
    · nlinarith
    · intro _
      nlinarith

/-- Claim C9: after `add_topography` (with air layers present, a strictly
increasing input axis long enough to hold them, and a positive air cell
size), a cell whose center depth `gcz k` lies strictly below the new sea
level but above the local surface depth (`sea_level < gcz ≤
sea_level - surface`) gets the sea resistivity and mask code 9, and a cell
whose center is above the local surface and at or above sea level
(`gcz ≤ sea_level - surface` and `gcz ≤ sea_level`) gets the air
resistivity and mask code 0; the mask entry of cell `(j, i, k)` is stored
at north row `nN - 1 - j` because line 2165 reverses the mask along the
north axis. -/
theorem C9_topography_classification (t : TopoInput) (air_res sea_res : ℚ)
    (hair : 0 < t.n_airlayers)
    (hsorted : List.Sorted (· < ·) t.grid_z)
    (hlen : t.n_airlayers < t.grid_z.length)
    (hcs : 0 < air_cell_size t)
    (j i k : ℕ) (hj : j < t.nN)
    (hk : k + 1 < (adjusted_grid_z t).length) :
    (topo_sea_level t < gcz_of (adjusted_grid_z t) k ∧
        gcz_of (adjusted_grid_z t) k ≤ topo_sea_level t - t.surface j i →
      (add_topography t air_res sea_res).res_model j i k = sea_res ∧
      (add_topography t air_res sea_res).covariance_mask (t.nN - 1 - j) i k = 9) ∧
    (gcz_of (adjusted_grid_z t) k ≤ topo_sea_level t - t.surface j i ∧
        gcz_of (adjusted_grid_z t) k ≤ topo_sea_level t →
      (add_topography t air_res sea_res).res_model j i k = air_res ∧
      (add_topography t air_res sea_res).covariance_mask (t.nN - 1 - j) i k = 0) := by
  have hjj : t.nN - 1 - (t.nN - 1 - j) = j := by omega
  constructor
  · rintro ⟨h1, h2⟩
    refine ⟨?_, ?_⟩
    · simp only [add_topography]
      rw [if_pos ⟨h1, h2⟩]
    · simp only [add_topography, hjj, topo_mask_pre]
      rw [if_pos ⟨h1, h2⟩]
  · rintro ⟨h1, h2⟩
    have hnot : ¬ topo_sea_level t < gcz_of (adjusted_grid_z t) k := not_lt.mpr h2
    have hcpos : 0 < gcz_of (adjusted_grid_z t) k := by
      have H := adjusted_grid_z_nonneg t hair hsorted hlen hcs
      have ha := (H k (by omega)).1
      have hb := (H (k + 1) hk).2 (by omega)
      rw [gcz_of]
      linarith
    refine ⟨?_, ?_⟩
    · simp only [add_topography, topo_res_air]
      rw [if_neg fun hc => hnot hc.1, if_pos hair, if_pos ⟨h1, hcpos⟩]
    · simp only [add_topography, hjj, topo_mask_pre]
      rw [if_neg fun hc => hnot hc.1, if_pos h1]

/-- A one-row, two-column model with one air layer: input axis
`[0, 10, 20, 30]`, topography `+5 m` at column 0 and `-20 m` (underwater)
at column 1. -/
def tC9 : TopoInput :=
  { nN := 1
    nE := 2
    grid_z := [0, 10, 20, 30]
    n_airlayers := 1
    sea_level := 0
    res_model := fun _ _ _ => 100
    surface := fun _ i => if i = 0 then 5 else -20 }

theorem tC9_amax : amax_surface tC9 = 5 := by
  rw [amax_surface]
  norm_num [tC9, List.range_succ, maxL, max_def]

theorem tC9_cs : air_cell_size tC9 = 5 := by
  rw [air_cell_size, tC9_amax]
  norm_num [tC9]

theorem tC9_grid : adjusted_grid_z tC9 = [0, 5, 15, 25] := by
  rw [adjusted_grid_z, if_pos (by norm_num [tC9])]
  rw [tC9_cs]
  norm_num [tC9, List.range_succ]

theorem tC9_sea : topo_sea_level tC9 = 5 := by
  rw [topo_sea_level, if_pos (by norm_num [tC9]), tC9_grid]
  norm_num [tC9]

/-- At `tC9` with air resistivity `1e17` and sea resistivity `0.3`: the
underwater cell `(0, 1, 1)` (center depth 10, between sea level 5 and
surface depth 25) gets resistivity `0.3` and mask 9, and the air cell
`(0, 1, 0)` (center depth 2.5, above sea level) gets `1e17` and mask 0. -/
theorem C9_witness :
    (add_topography tC9 (10 ^ 17) (3 / 10)).res_model 0 1 1 = 3 / 10 ∧
    (add_topography tC9 (10 ^ 17) (3 / 10)).covariance_mask 0 1 1 = 9 ∧
    (add_topography tC9 (10 ^ 17) (3 / 10)).res_model 0 1 0 = 10 ^ 17 ∧
    (add_topography tC9 (10 ^ 17) (3 / 10)).covariance_mask 0 1 0 = 0 := by
  have hair : 0 < tC9.n_airlayers := by norm_num [tC9]
  have hsorted : List.Sorted (· < ·) tC9.grid_z := by decide
  have hlen : tC9.n_airlayers < tC9.grid_z.length := by decide
  have hcs : 0 < air_cell_size tC9 := by rw [tC9_cs]; norm_num
  have h1 := C9_topography_classification tC9 (10 ^ 17) (3 / 10) hair hsorted hlen
    hcs 0 1 1 (by norm_num [tC9]) (by rw [tC9_grid]; norm_num)
  have h0 := C9_topography_classification tC9 (10 ^ 17) (3 / 10) hair hsorted hlen
    hcs 0 1 0 (by norm_num [tC9]) (by rw [tC9_grid]; norm_num)
  have hs1 := h1.1 (by rw [tC9_sea, tC9_grid]; norm_num [gcz_of, tC9])
  have hs0 := h0.2 (by rw [tC9_sea, tC9_grid]; norm_num [gcz_of, tC9])
  have hnn : tC9.nN - 1 - 0 = 0 := by decide
  rw [hnn] at hs1 hs0
  exact ⟨hs1.1, hs1.2, hs0.1, hs0.2⟩

/-! ## `Model.write_model_file` (modem.py lines 2505-2666) and
`Model.read_model_file` (lines 2668-2788), claim C2.

The writer's numeric formatting (`{0:>12.3f}`, `{0:>13.5E}`,
`{0:>16.3f}`, `{0:>9.3f}`) is modelled as the exact rational value, and
a written line as the list of its numeric tokens after
`.strip().split()` (a blank line is `[]`); the title line (index 0) and
the counts line (index 1) are carried structurally since the reader
consumes them by position.  `np.log` / `np.log10` are taken as function
parameters `logeF` / `log10F`. -/

/-- The writer-side model state: node widths, title, resistivity volume
(indexed `[north, east, z]`), scale, optional grid center and optional
mesh rotation angle. -/
structure ModelState where
  nodes_north : List ℚ
  nodes_east : List ℚ
  nodes_z : List ℚ
  title : String
  res_model : ℕ → ℕ → ℕ → ℚ
  res_scale : String
  grid_center : Option (ℚ × ℚ × ℚ)
  mesh_rotation_angle : Option ℚ

/-- A written model file: the title line, the four counts-line fields the
reader uses, and `ilines[2:]` as token lists. -/
structure ModelFile where
  title : String
  n_north : ℕ
  n_east : ℕ
  n_z : ℕ
  scale : String
  rest : List (List ℚ)

/-- The reader-side object state: `read_model_file` assigns `title`, the
three node arrays, `res_model`, and conditionally `grid_center` and
`rotation_angle`; it never touches `mesh_rotation_angle`. -/
structure ModelObj where
  title : String
  nodes_north : List ℚ
  nodes_east : List ℚ
  nodes_z : List ℚ
  res_model : ℕ → ℕ → ℕ → ℚ
  grid_center : Option (ℚ × ℚ × ℚ)
  rotation_angle : Option ℚ
  mesh_rotation_angle : Option ℚ

/-- The scale transform of lines 2633-2640: `loge` uses `np.log`,
`log`/`log10` use `np.log10`, `linear` is the identity. -/
def model_scale_fun (scale : String) (logeF log10F : ℚ → ℚ) : ℚ → ℚ :=
  if strLower scale = "loge" then logeF
  else if strLower scale = "log" ∨ strLower scale = "log10" then log10F
  else id

/-- The grid center written at lines 2650-2658: the stored one, or
`(-sum |north| / 2, -sum |east| / 2, 0)` when unset. -/
def model_center (m : ModelState) : ℚ × ℚ × ℚ :=
  match m.grid_center with
  | some c => c
  | none =>
      (-(m.nodes_north.map fun q => |q|).sum / 2,
        -(m.nodes_east.map fun q => |q|).sum / 2, 0)

/-- One written resistivity row (lines 2643-2648): for east index `ee`
and layer `zz`, the transformed values of `res_model[::-1, ee, zz]`
(north reversed). -/
def model_row (m : ModelState) (T : ℚ → ℚ) (ee zz : ℕ) : List ℚ :=
  (List.range m.nodes_north.length).map fun nn =>
    T (m.res_model (m.nodes_north.length - 1 - nn) ee zz)

/-- The rows of one written layer: one row per east index. -/
def model_rows (m : ModelState) (T : ℚ → ℚ) (zz : ℕ) : List (List ℚ) :=
  (List.range m.nodes_east.length).map fun ee => model_row m T ee zz

/-- The layer block of lines 2643-2648: for each layer a blank line then
one row per east index. -/
def model_layers (m : ModelState) (T : ℚ → ℚ) : List (List ℚ) :=
  (List.range m.nodes_z.length).flatMap fun zz => [] :: model_rows m T zz

/-- `Model.write_model_file` (lines 2505-2666).  `none` when `res_scale`
is not one of `loge`/`log`/`log10`/`linear` (the source would then hit an
unbound `write_res_model`, line 2648).  Node widths are written as
absolute values (lines 2620-2631); the counts are the node-array lengths;
the trailer is a blank line, the center line and the rotation line
(`mesh_rotation_angle`, 0 when unset, lines 2660-2664). -/
def write_model_file (m : ModelState) (logeF log10F : ℚ → ℚ) : Option ModelFile :=
  if strLower m.res_scale = "loge" ∨ strLower m.res_scale = "log" ∨
      strLower m.res_scale = "log10" ∨ strLower m.res_scale = "linear" then
    some
      { title := "# " ++ strUpper m.title
        n_north := m.nodes_north.length
        n_east := m.nodes_east.length
        n_z := m.nodes_z.length
        scale := strUpper m.res_scale
        rest :=
          [m.nodes_north.map fun q => |q|, m.nodes_east.map fun q => |q|,
              m.nodes_z.map fun q => |q|] ++
            model_layers m (model_scale_fun m.res_scale logeF log10F) ++
            [[], [(model_center m).1, (model_center m).2.1, (model_center m).2.2],
              [m.mesh_rotation_angle.getD 0]] }
  else none

/-- The reader's while loop (lines 2748-2775): starting from
`line_index = 6`, a blank line (or, by the bug of line 2762, any
3-token line while in the last layer) closes the current layer; any
other line whose token count matches `n_north` is scattered reversed
into `res_model[:, count_e, count_z]`; a token-count mismatch is a numpy
broadcast error (`none`), as is running out of lines (`IndexError`). -/
def read_layers (nN nZ : ℕ) :
    List (List ℚ) → ℕ → ℕ → (ℕ → ℕ → ℕ → ℚ) →
      Option ((ℕ → ℕ → ℕ → ℚ) × List (List ℚ))
  | [], cz, _, res => if nZ ≤ cz then some (res, []) else none
  | iline :: tl, cz, ce, res =>
    if nZ ≤ cz then some (res, iline :: tl)
    else if iline.length = 0 then read_layers nN nZ tl (cz + 1) 0 res
    else if iline.length = 3 ∧ cz = nZ - 1 then read_layers nN nZ tl (cz + 1) 0 res
    else if iline.length = nN then
      read_layers nN nZ tl cz (ce + 1) fun n e z =>
        if n < nN ∧ e = ce ∧ z = cz then iline.getD (nN - 1 - n) 0 else res n e z
    else none

/-- The trailer loop (lines 2777-2788): a 3-token line sets the grid
center, a 1-token line sets `rotation_angle`, anything else is passed
over. -/
def read_trailer : List (List ℚ) → Option (ℚ × ℚ × ℚ) → Option ℚ →
    Option (ℚ × ℚ × ℚ) × Option ℚ
  | [], c, r => (c, r)
  | l :: tl, c, r =>
    if l.length = 3 then read_trailer tl (some (l.getD 0 0, l.getD 1 0, l.getD 2 0)) r
    else if l.length = 1 then read_trailer tl c (some (l.getD 0 0))
    else read_trailer tl c r

/-- The inverse scale transform of lines 2792-2796: after the trailer,
the reader maps the whole resistivity array with `np.e ** res` when the
counts line's scale token lowercases to `loge`, with `10 ** res` for
`log`/`log10`, and leaves it alone otherwise; the two exponentials are
the parameters `expF`/`exp10F`. -/
def model_inv_transform (scale : String) (expF exp10F : ℚ → ℚ) : ℚ → ℚ :=
  if strLower scale = "loge" then expF
  else if strLower scale = "log" ∨ strLower scale = "log10" then exp10F
  else id

/-- Assembles the read state once the layer loop has finished: the
trailer parse (lines 2780-2790) and then the inverse scale transform of
lines 2792-2796, applied pointwise to the final array (`invT`). -/
def finish_read (self : ModelObj) (title : String) (invT : ℚ → ℚ)
    (ln le lz : List ℚ) :
    Option ((ℕ → ℕ → ℕ → ℚ) × List (List ℚ)) → Option ModelObj
  | none => none
  | some (res, remaining) =>
    some
      { title := title
        nodes_north := ln
        nodes_east := le
        nodes_z := lz
        res_model := fun n e z => invT (res n e z)
        grid_center := (read_trailer remaining self.grid_center self.rotation_angle).1
        rotation_angle := (read_trailer remaining self.grid_center self.rotation_angle).2
        mesh_rotation_angle := self.mesh_rotation_angle }

/-- Dispatch of `read_model_file` on `ilines[2:]`: node lines at indices
2-4, the loop starts at `ilines[6]` so the line at index 5 is skipped
unread; fewer than 4 lines is an `IndexError` (`none`). -/
def read_rest (nN nZ : ℕ) (invT : ℚ → ℚ) (self : ModelObj) (title : String) :
    List (List ℚ) → Option ModelObj
  | ln :: le :: lz :: _ :: body =>
    finish_read self title invT ln le lz (read_layers nN nZ body 0 0 fun _ _ _ => 0)
  | _ => none

/-- `Model.read_model_file` (lines 2668-2810) on an in-memory file.
`log_yn` is the counts line's scale token (`nsize[4]`, line 2737); after
the layer loop and the trailer, the reader inverts the scale (lines
2792-2796) with the exponential primitives passed as `expF`/`exp10F`. -/
def read_model_file (f : ModelFile) (expF exp10F : ℚ → ℚ)
    (self : ModelObj) : Option ModelObj :=
  read_rest f.n_north f.n_z (model_inv_transform f.scale expF exp10F) self
    f.title f.rest

/-- The cumulative effect of the scatter assignments of one run of
in-layer rows, starting at east index `ce`. -/
def apply_rows (nN cz : ℕ) : ℕ → List (List ℚ) → (ℕ → ℕ → ℕ → ℚ) → ℕ → ℕ → ℕ → ℚ
  | _, [], res => res
  | ce, r :: tl, res =>
    apply_rows nN cz (ce + 1) tl fun n e z =>
      if n < nN ∧ e = ce ∧ z = cz then r.getD (nN - 1 - n) 0 else res n e z

/-- The cumulative effect of `d` consecutive layers starting at `cz`,
layer `zz` contributing the rows `rowsOf zz`. -/
def apply_layers (nN : ℕ) (rowsOf : ℕ → List (List ℚ)) :
    ℕ → ℕ → (ℕ → ℕ → ℕ → ℚ) → ℕ → ℕ → ℕ → ℚ
  | _, 0, res => res
  | cz, d + 1, res =>
    apply_layers nN rowsOf (cz + 1) d (apply_rows nN cz 0 (rowsOf cz) res)

theorem read_layers_done (nN nZ : ℕ) (lines : List (List ℚ)) (cz ce : ℕ)
    (res : ℕ → ℕ → ℕ → ℚ) (h : nZ ≤ cz) :
    read_layers nN nZ lines cz ce res = some (res, lines) := by
  cases lines with
  | nil => rw [read_layers, if_pos h]
  | cons a tl => rw [read_layers, if_pos h]

theorem read_layers_blank (nN nZ : ℕ) (tl : List (List ℚ)) (cz ce : ℕ)
    (res : ℕ → ℕ → ℕ → ℚ) (h : cz < nZ) :
    read_layers nN nZ ([] :: tl) cz ce res = read_layers nN nZ tl (cz + 1) 0 res := by
  rw [read_layers, if_neg (not_le.mpr h)]
  rfl

theorem read_layers_row (nN nZ : ℕ) (r : List ℚ) (tl : List (List ℚ)) (cz ce : ℕ)
    (res : ℕ → ℕ → ℕ → ℚ) (h : cz < nZ) (hlen : r.length = nN) (h0 : nN ≠ 0)
    (h3 : ¬(nN = 3 ∧ cz = nZ - 1)) :
    read_layers nN nZ (r :: tl) cz ce res =
      read_layers nN nZ tl cz (ce + 1) fun n e z =>
        if n < nN ∧ e = ce ∧ z = cz then r.getD (nN - 1 - n) 0 else res n e z := by
  rw [read_layers, if_neg (not_le.mpr h), hlen, if_neg h0, if_neg h3, if_pos rfl]

theorem read_layers_rows (nN nZ cz : ℕ) (h : cz < nZ) (h0 : nN ≠ 0)
    (h3 : ¬(nN = 3 ∧ cz = nZ - 1)) :
    ∀ (rows tl : List (List ℚ)) (ce : ℕ) (res : ℕ → ℕ → ℕ → ℚ),
      (∀ r ∈ rows, r.length = nN) →
      read_layers nN nZ (rows ++ tl) cz ce res =
        read_layers nN nZ tl cz (ce + rows.length) (apply_rows nN cz ce rows res) := by
  intro rows
  induction rows with
  | nil => intro tl ce res _; simp [apply_rows]
  | cons r rows ih =>
    intro tl ce res hlen
    rw [List.cons_append,
      read_layers_row nN nZ r (rows ++ tl) cz ce res h (hlen r (by simp)) h0 h3,
      ih tl (ce + 1) _ fun x hx => hlen x (List.mem_cons_of_mem _ hx)]
    have hcount : ce + 1 + rows.length = ce + (r :: rows).length := by
      simp only [List.length_cons]
      omega
    rw [hcount]
    rfl

theorem apply_rows_val (nN cz : ℕ) :
    ∀ (rows : List (List ℚ)) (ce : ℕ) (res : ℕ → ℕ → ℕ → ℚ) (n e z : ℕ),
      apply_rows nN cz ce rows res n e z =
        if n < nN ∧ ce ≤ e ∧ e < ce + rows.length ∧ z = cz then
          (rows.getD (e - ce) []).getD (nN - 1 - n) 0
        else res n e z := by
  intro rows
  induction rows with
  | nil =>
    intro ce res n e z
    rw [apply_rows, if_neg (by simp only [List.length_nil]; omega)]
  | cons r rows ih =>
    intro ce res n e z
    rw [apply_rows, ih]
    simp only [List.length_cons]
    by_cases h1 : n < nN ∧ ce + 1 ≤ e ∧ e < ce + 1 + rows.length ∧ z = cz
    · rw [if_pos h1, if_pos (by omega)]
      have he : e - ce = (e - (ce + 1)) + 1 := by omega
      rw [he, List.getD_cons_succ]
    · rw [if_neg h1]
      by_cases h2 : n < nN ∧ e = ce ∧ z = cz
      · rw [if_pos h2, if_pos (by omega)]
        have he : e - ce = 0 := by omega
        rw [he, List.getD_cons_zero]
      · rw [if_neg h2, if_neg (by omega)]

theorem read_layers_layers (nN nZ : ℕ) (rowsOf : ℕ → List (List ℚ)) (h0 : nN ≠ 0)
    (h3 : nN ≠ 3) (hlen : ∀ zz, ∀ r ∈ rowsOf zz, r.length = nN) :
    ∀ (d cz : ℕ), cz + d = nZ → ∀ (tl : List (List ℚ)) (res : ℕ → ℕ → ℕ → ℚ),
      read_layers nN nZ
          (((List.range' cz d).flatMap fun zz => rowsOf zz ++ [[]]) ++ tl) cz 0 res =
        some (apply_layers nN rowsOf cz d res, tl) := by
  intro d
  induction d with
  | zero =>
    intro cz hcz tl res
    simp only [List.range', List.flatMap_nil, List.nil_append]
    rw [read_layers_done nN nZ tl cz 0 res (by omega)]
    rfl
  | succ d ih =>
    intro cz hcz tl res
    have hczlt : cz < nZ := by omega
    have h3' : ¬(nN = 3 ∧ cz = nZ - 1) := fun hc => h3 hc.1
    rw [List.range'_succ, List.flatMap_cons]
    have hassoc :
        ((rowsOf cz ++ [[]]) ++ (List.range' (cz + 1) d).flatMap fun zz =>
            rowsOf zz ++ [[]]) ++ tl =
          rowsOf cz ++
            ([] :: (((List.range' (cz + 1) d).flatMap fun zz => rowsOf zz ++ [[]]) ++ tl)) := by
      simp [List.append_assoc]
    rw [hassoc,
      read_layers_rows nN nZ cz hczlt h0 h3' (rowsOf cz) _ 0 res (hlen cz),
      read_layers_blank nN nZ _ cz _ _ hczlt,
      ih (cz + 1) (by omega) tl _]
    rfl

theorem apply_layers_val (nN : ℕ) (rowsOf : ℕ → List (List ℚ)) :
    ∀ (d cz : ℕ) (res : ℕ → ℕ → ℕ → ℚ) (n e z : ℕ),
      apply_layers nN rowsOf cz d res n e z =
        if n < nN ∧ cz ≤ z ∧ z < cz + d ∧ e < (rowsOf z).length then
          ((rowsOf z).getD e []).getD (nN - 1 - n) 0
        else res n e z := by
  intro d
  induction d with
  | zero =>
    intro cz res n e z
    rw [apply_layers, if_neg (by omega)]
  | succ d ih =>
    intro cz res n e z
    rw [apply_layers, ih]
    by_cases h1 : n < nN ∧ cz + 1 ≤ z ∧ z < cz + 1 + d ∧ e < (rowsOf z).length
    · rw [if_pos h1, if_pos (by omega)]
    · rw [if_neg h1, apply_rows_val]
      by_cases h2 : n < nN ∧ 0 ≤ e ∧ e < 0 + (rowsOf cz).length ∧ z = cz
      · obtain ⟨ha, _, hc, hd⟩ := h2
        subst hd
        rw [if_pos ⟨ha, by omega, by omega, by omega⟩, if_pos ⟨ha, le_refl z, by omega⟩]
        simp
      · rw [if_neg h2]
        by_cases hz : z = cz
        · subst hz
          rw [if_neg (by omega)]
        · rw [if_neg (by omega)]

theorem blank_shift (f : ℕ → List (List ℚ)) :
    ∀ L : List ℕ,
      (L.flatMap fun zz => [] :: f zz) ++ [([] : List ℚ)] =
        [] :: L.flatMap fun zz => f zz ++ [[]] := by
  intro L
  induction L with
  | nil => rfl
  | cons a tl ih =>
    simp only [List.flatMap_cons, List.cons_append, List.append_assoc, ih,
      List.nil_append]

theorem map_abs_of_nonneg (l : List ℚ) (h : ∀ x ∈ l, 0 ≤ x) :
    (l.map fun q => |q|) = l := by
  conv_rhs => rw [← List.map_id l]
  exact List.map_congr_left fun x hx => abs_of_nonneg (h x hx)

/-- Claim C2 (amended): writing a model with `write_model_file` and
reading the file back with `read_model_file` — for a valid `res_scale`,
nonnegative node widths (they are written as absolute values), a north
dimension that is neither 0 nor 3 (3-row models trip the
block-separator bug of line 2762), and exponential primitives that
invert the logarithmic ones (`hinv`, the claim's "within the tolerance
of the log/linear transform round-trip": exact for the rational model,
float round-off in the source) — reproduces the three node arrays
exactly, reproduces every in-range resistivity value (the reader
inverts the scale at lines 2792-2796), reproduces the grid center
triple exactly, and stores the written rotation angle in the reader's
`rotation_angle` attribute while leaving `mesh_rotation_angle`
untouched. -/
theorem C2_model_round_trip (m : ModelState) (self : ModelObj)
    (logeF log10F expF exp10F : ℚ → ℚ)
    (hvalid : strLower m.res_scale = "loge" ∨ strLower m.res_scale = "log" ∨
      strLower m.res_scale = "log10" ∨ strLower m.res_scale = "linear")
    (hN0 : m.nodes_north.length ≠ 0)
    (hN3 : m.nodes_north.length ≠ 3)
    (hnn : ∀ x ∈ m.nodes_north, 0 ≤ x)
    (hne : ∀ x ∈ m.nodes_east, 0 ≤ x)
    (hnz : ∀ x ∈ m.nodes_z, 0 ≤ x)
    (hinv : ∀ q : ℚ, model_inv_transform (strUpper m.res_scale) expF exp10F
      (model_scale_fun m.res_scale logeF log10F q) = q) :
    ∃ F out, write_model_file m logeF log10F = some F ∧
      read_model_file F expF exp10F self = some out ∧
      out.nodes_north = m.nodes_north ∧
      out.nodes_east = m.nodes_east ∧
      out.nodes_z = m.nodes_z ∧
      (∀ n e z, n < m.nodes_north.length → e < m.nodes_east.length →
        z < m.nodes_z.length →
        out.res_model n e z = m.res_model n e z) ∧
      out.grid_center = some (model_center m) ∧
      out.rotation_angle = some (m.mesh_rotation_angle.getD 0) ∧
      out.mesh_rotation_angle = self.mesh_rotation_angle := by
  have hlenrows : ∀ zz : ℕ,
      ∀ r ∈ model_rows m (model_scale_fun m.res_scale logeF log10F) zz,
        r.length = m.nodes_north.length := by
    intro zz r hr
    rw [model_rows] at hr
    simp only [List.mem_map, List.mem_range] at hr
    obtain ⟨ee, _, rfl⟩ := hr
    simp [model_row]
  have hsplit : model_layers m (model_scale_fun m.res_scale logeF log10F) ++
        ([[], [(model_center m).1, (model_center m).2.1, (model_center m).2.2],
          [m.mesh_rotation_angle.getD 0]] : List (List ℚ)) =
      [] :: (((List.range m.nodes_z.length).flatMap fun zz =>
          model_rows m (model_scale_fun m.res_scale logeF log10F) zz ++ [[]]) ++
        [[(model_center m).1, (model_center m).2.1, (model_center m).2.2],
          [m.mesh_rotation_angle.getD 0]]) := by
    have h1 : ([[], [(model_center m).1, (model_center m).2.1, (model_center m).2.2],
          [m.mesh_rotation_angle.getD 0]] : List (List ℚ)) =
        [([] : List ℚ)] ++
          [[(model_center m).1, (model_center m).2.1, (model_center m).2.2],
            [m.mesh_rotation_angle.getD 0]] := rfl
    rw [h1, ← List.append_assoc, model_layers,
      blank_shift (model_rows m (model_scale_fun m.res_scale logeF log10F))
        (List.range m.nodes_z.length)]
    rfl
  have htrail : read_trailer
        [[(model_center m).1, (model_center m).2.1, (model_center m).2.2],
          [m.mesh_rotation_angle.getD 0]] self.grid_center self.rotation_angle =
      (some (model_center m), some (m.mesh_rotation_angle.getD 0)) := by
    rw [read_trailer, if_pos (by rfl : ([(model_center m).1, (model_center m).2.1,
        (model_center m).2.2] : List ℚ).length = 3)]
    rw [read_trailer, if_neg (by simp), if_pos (by rfl :
      ([m.mesh_rotation_angle.getD 0] : List ℚ).length = 1), read_trailer]
    rfl
  refine ⟨_,
    { title := "# " ++ strUpper m.title
      nodes_north := m.nodes_north.map fun q => |q|
      nodes_east := m.nodes_east.map fun q => |q|
      nodes_z := m.nodes_z.map fun q => |q|
      res_model := fun n e z =>
        model_inv_transform (strUpper m.res_scale) expF exp10F
          (apply_layers m.nodes_north.length
            (model_rows m (model_scale_fun m.res_scale logeF log10F)) 0
            m.nodes_z.length (fun _ _ _ => 0) n e z)
      grid_center := some (model_center m)
      rotation_angle := some (m.mesh_rotation_angle.getD 0)
      mesh_rotation_angle := self.mesh_rotation_angle },
    by rw [write_model_file, if_pos hvalid], ?_, ?_, ?_, ?_, ?_, ?_, ?_, ?_⟩
  · rw [read_model_file]
    dsimp only
    rw [List.append_assoc, hsplit]
    simp only [List.cons_append, List.nil_append]
    rw [List.range_eq_range', read_rest,
      read_layers_layers m.nodes_north.length m.nodes_z.length
        (model_rows m (model_scale_fun m.res_scale logeF log10F)) hN0 hN3 hlenrows
        m.nodes_z.length 0 (Nat.zero_add _) _ _,
      finish_read, htrail]
  · exact map_abs_of_nonneg _ hnn
  · exact map_abs_of_nonneg _ hne
  · exact map_abs_of_nonneg _ hnz
  · intro n e z hn he hz
    have hrowval : (model_rows m (model_scale_fun m.res_scale logeF log10F) z).getD
          e [] = model_row m (model_scale_fun m.res_scale logeF log10F) e z := by
      rw [model_rows, List.getD_eq_getElem _ _ (by simpa using he)]
      simp
    have hcellval : (model_row m (model_scale_fun m.res_scale logeF log10F) e z).getD
          (m.nodes_north.length - 1 - n) 0 =
        model_scale_fun m.res_scale logeF log10F (m.res_model n e z) := by
      rw [model_row, List.getD_eq_getElem _ _ (by simp; omega)]
      simp only [List.getElem_map, List.getElem_range]
      have hidx : m.nodes_north.length - 1 - (m.nodes_north.length - 1 - n) = n := by
        omega
      rw [hidx]
    have hlenE : (model_rows m (model_scale_fun m.res_scale logeF log10F) z).length =
        m.nodes_east.length := by simp [model_rows]
    have hfwd : apply_layers m.nodes_north.length
        (model_rows m (model_scale_fun m.res_scale logeF log10F)) 0
        m.nodes_z.length (fun _ _ _ => 0) n e z =
        model_scale_fun m.res_scale logeF log10F (m.res_model n e z) := by
      rw [apply_layers_val,
        if_pos ⟨hn, Nat.zero_le z, by omega, by rw [hlenE]; exact he⟩,
        hrowval, hcellval]
    show model_inv_transform (strUpper m.res_scale) expF exp10F
        (apply_layers m.nodes_north.length
          (model_rows m (model_scale_fun m.res_scale logeF log10F)) 0
          m.nodes_z.length (fun _ _ _ => 0) n e z) = _
    rw [hfwd, hinv]
  · rfl
  · rfl
  · rfl

/-- A 2x1x2 model with linear scale, explicit center and rotation. -/
def mC2 : ModelState :=
  { nodes_north := [100, 200]
    nodes_east := [50]
    nodes_z := [10, 20]
    title := "t"
    res_model := fun n e z => (100 : ℚ) + n + 10 * e + 100 * z
    res_scale := "linear"
    grid_center := some (1, 2, 3)
    mesh_rotation_angle := some 4 }

/-- A pre-read object state carrying `mesh_rotation_angle = 7`. -/
def mObjC2 : ModelObj :=
  { title := ""
    nodes_north := []
    nodes_east := []
    nodes_z := []
    res_model := fun _ _ _ => 0
    grid_center := none
    rotation_angle := none
    mesh_rotation_angle := some 7 }

/-- The round trip at `mC2`: all hypotheses hold and writing then
reading reproduces nodes, every in-range resistivity value (linear
scale), the center, and the rotation angle (into `rotation_angle`),
leaving `mesh_rotation_angle` at 7. -/
theorem C2_witness :
    (strLower mC2.res_scale = "loge" ∨ strLower mC2.res_scale = "log" ∨
      strLower mC2.res_scale = "log10" ∨ strLower mC2.res_scale = "linear") ∧
    mC2.nodes_north.length ≠ 0 ∧ mC2.nodes_north.length ≠ 3 ∧
    (∀ q : ℚ, model_inv_transform (strUpper mC2.res_scale) id id
      (model_scale_fun mC2.res_scale id id q) = q) ∧
    (∃ F out, write_model_file mC2 id id = some F ∧
      read_model_file F id id mObjC2 = some out ∧
      out.nodes_north = mC2.nodes_north ∧
      out.nodes_east = mC2.nodes_east ∧
      out.nodes_z = mC2.nodes_z ∧
      (∀ n e z, n < mC2.nodes_north.length → e < mC2.nodes_east.length →
        z < mC2.nodes_z.length →
        out.res_model n e z = mC2.res_model n e z) ∧
      out.grid_center = some (model_center mC2) ∧
      out.rotation_angle = some (mC2.mesh_rotation_angle.getD 0) ∧
      out.mesh_rotation_angle = mObjC2.mesh_rotation_angle) :=
  ⟨by decide, by decide, by decide,
    fun q => by
      rw [model_inv_transform, model_scale_fun, if_neg (by decide),
        if_neg (by decide), if_neg (by decide), if_neg (by decide)]
      rfl,
    C2_model_round_trip mC2 mObjC2 id id id id (by decide) (by decide)
      (by decide) (by decide) (by decide) (by decide)
      (fun q => by
        rw [model_inv_transform, model_scale_fun, if_neg (by decide),
          if_neg (by decide), if_neg (by decide), if_neg (by decide)]
        rfl)⟩

/-- A model with exactly 3 north nodes: its single layer's only row has
3 tokens and is misread as a block separator by line 2762. -/
def mC2b : ModelState :=
  { nodes_north := [10, 10, 10]
    nodes_east := [10]
    nodes_z := [10]
    title := "t"
    res_model := fun _ _ _ => 100
    res_scale := "linear"
    grid_center := some (0, 0, 0)
    mesh_rotation_angle := some 0 }

/-- Writing `mC2b` (all resistivities 100, linear scale) and reading the
file back yields 0 — the zeros-initialised array entry — instead of 100:
the 3-token data row of the last layer is taken for a block separator,
so the resistivity volume is not reproduced. -/
theorem C2_counterexample :
    ∃ F out, write_model_file mC2b id id = some F ∧
      read_model_file F id id mObjC2 = some out ∧
      out.res_model 0 0 0 = 0 ∧ mC2b.res_model 0 0 0 = 100 :=
  ⟨_, _, rfl, rfl, rfl, rfl⟩

/-! ## `Data.read_data_file` (modem.py lines 1166-1371), claim C1.

The reader is a line scan followed by a scatter of the collected data
lines.  A `FileLine.meta` line is a `'>'` line by construction, so the
source's `find(...) > 0` substring probes (the needles never sit at
position 0) are `strContainsSub`; the numeric `'>'` lines
(`metaCenter`/`metaCounts`) contain none of the probed needles.  The
`float(...)` parse of an arbitrary `'>'` text line reached when
`linecount == 7` is the parameter `floatParse` (`none` = `ValueError`);
on files this writer produces, line 7 is always the first block's
center line, so the parameter is never consulted. -/

/-- The reader's scan state: the `Data` attributes the line loop of
lines 1199-1246 assigns, plus the loop locals. -/
structure ReadAcc where
  units : String
  wave_sign_impedance : Char
  wave_sign_tipper : Char
  read_impedance : Bool
  read_tipper : Bool
  center_position : List ℚ
  rows : List DataRow
  linecount : ℕ

/-- One iteration of the reading loop (lines 1206-1246).  `'#'` lines
only count; a `'>'` line runs the substring probes in source order
(`ohm` then `mv` for the units, `vertical`/`impedance` for the flags,
then the `linecount == 7` center parse, then the `exp` wave-sign grab,
which sees the flags as updated by this same line); a data line is
appended (the written lines always have 11 fields). -/
def scan_step (floatParse : String → Option (List ℚ)) (acc : ReadAcc) :
    FileLine → Option ReadAcc
  | FileLine.header1 _ _ _ => some { acc with linecount := acc.linecount + 1 }
  | FileLine.header2 => some { acc with linecount := acc.linecount + 1 }
  | FileLine.meta s =>
    let u1 := if strContainsSub (strLower s) "ohm" then "ohm" else acc.units
    let u2 := if strContainsSub (strLower s) "mv" then " [mV/km]/[nT]" else u1
    let rt1 := if strContainsSub (strLower s) "vertical" then true
      else if strContainsSub (strLower s) "impedance" then false else acc.read_tipper
    let ri1 := if strContainsSub (strLower s) "vertical" then false
      else if strContainsSub (strLower s) "impedance" then true else acc.read_impedance
    let wz := if strContainsSub s "exp" && ri1 then charAfterParen s
      else acc.wave_sign_impedance
    let wt := if strContainsSub s "exp" && !ri1 && rt1 then charAfterParen s
      else acc.wave_sign_tipper
    if acc.linecount + 1 = 7 then
      match floatParse s with
      | none => none
      | some ctr =>
        some { acc with
          units := u2
          read_tipper := rt1
          read_impedance := ri1
          wave_sign_impedance := wz
          wave_sign_tipper := wt
          center_position := ctr
          linecount := acc.linecount + 1 }
    else
      some { acc with
        units := u2
        read_tipper := rt1
        read_impedance := ri1
        wave_sign_impedance := wz
        wave_sign_tipper := wt
        linecount := acc.linecount + 1 }
  | FileLine.metaCenter e n =>
    if acc.linecount + 1 = 7 then
      some { acc with
        center_position := [e, n]
        linecount := acc.linecount + 1 }
    else some { acc with linecount := acc.linecount + 1 }
  | FileLine.metaCounts np ns =>
    if acc.linecount + 1 = 7 then
      some { acc with
        center_position := [(np : ℚ), (ns : ℚ)]
        linecount := acc.linecount + 1 }
    else some { acc with linecount := acc.linecount + 1 }
  | FileLine.data r =>
    some { acc with
      rows := acc.rows ++ [r]
      linecount := acc.linecount + 1 }

/-- The whole reading loop. -/
def scan_lines (floatParse : String → Option (List ℚ)) :
    List FileLine → ReadAcc → Option ReadAcc
  | [], acc => some acc
  | l :: tl, acc =>
    match scan_step floatParse acc l with
    | none => none
    | some acc2 => scan_lines floatParse tl acc2

/-- Last-match-wins lookup, as repeated numpy cell assignments leave the
last written value in place. -/
def last_match (P : DataRow → Bool) (rows : List DataRow) : Option DataRow :=
  rows.foldl (fun acc r => if P r then some r else acc) none

/-- The reconstructed impedance cell for `(station, period, component)`
(lines 1309-1322): the last data line with that key, rebuilt as
`rea ± i*ima` per the scanned impedance wave sign and multiplied back by
796 under scanned Ohm units; the numpy dummy 0 when no line wrote the
cell.  (An invalid wave sign with an impedance line present is a
`NameError`; `read_data_file` returns `none` before this lookup is
meaningful.) -/
def read_z_cell (units : String) (waveZ : Char) (rows : List DataRow)
    (s : String) (p : ℚ) (c : String) : CQ :=
  match last_match (fun r => r.sta = s && r.per = p && strLower r.com = c) rows with
  | none => CQ.zero
  | some r =>
    let v : CQ := if waveZ = '+' then ⟨r.rea, r.ima⟩
      else if waveZ = '-' then ⟨r.rea, -r.ima⟩ else CQ.zero
    if units = "ohm" then ⟨v.re * 796, v.im * 796⟩ else v

/-- The reconstructed impedance error cell (lines 1315-1321): the last
matching line's error field, multiplied back by 796 under Ohm units. -/
def read_z_err_cell (units : String) (rows : List DataRow)
    (s : String) (p : ℚ) (c : String) : ℚ :=
  match last_match (fun r => r.sta = s && r.per = p && strLower r.com = c) rows with
  | none => 0
  | some r => if units = "ohm" then r.err * 796 else r.err

/-- The reconstructed tipper cell (lines 1324-1329): no units conversion
is applied; an unrecognised wave sign leaves the dummy 0 in place (only
the error is then written). -/
def read_t_cell (waveT : Char) (rows : List DataRow)
    (s : String) (p : ℚ) (c : String) : CQ :=
  match last_match (fun r => r.sta = s && r.per = p && strLower r.com = c) rows with
  | none => CQ.zero
  | some r =>
    if waveT = '+' then ⟨r.rea, r.ima⟩
    else if waveT = '-' then ⟨r.rea, -r.ima⟩ else CQ.zero

/-- The reconstructed tipper error cell (line 1329): written whatever the
wave sign, with no units conversion. -/
def read_t_err_cell (rows : List DataRow) (s : String) (p : ℚ) (c : String) : ℚ :=
  match last_match (fun r => r.sta = s && r.per = p && strLower r.com = c) rows with
  | none => 0
  | some r => r.err

/-- The reader's result: the scanned metadata, the period list
(`sorted(set(...))` of the data lines' periods, line 1259), and the
collected data lines, which the cell lookups above scatter. -/
structure ReadData where
  units : String
  wave_sign_impedance : Char
  wave_sign_tipper : Char
  center_position : List ℚ
  period_list : List ℚ
  rows : List DataRow

/-- `Data.read_data_file` (lines 1166-1371) on an in-memory file.
`none` models the scan's `ValueError` (a non-numeric line 7) and the
`NameError` of lines 1311-1314: an impedance line with a scanned wave
sign that is neither `'+'` nor `'-'` leaves `z_value` unbound. -/
def read_data_file (floatParse : String → Option (List ℚ))
    (lines : List FileLine) (init : ReadAcc) : Option ReadData :=
  match scan_lines floatParse lines init with
  | none => none
  | some acc =>
    if (acc.rows.any fun r => firstCharIs r.com 'Z') ∧
        ¬(acc.wave_sign_impedance = '+' ∨ acc.wave_sign_impedance = '-') then none
    else some
      { units := acc.units
        wave_sign_impedance := acc.wave_sign_impedance
        wave_sign_tipper := acc.wave_sign_tipper
        center_position := acc.center_position
        period_list := sortedSet (acc.rows.map DataRow.per)
        rows := acc.rows }

theorem scan_lines_append (floatParse : String → Option (List ℚ))
    (a b : List FileLine) : ∀ acc : ReadAcc,
    scan_lines floatParse (a ++ b) acc =
      match scan_lines floatParse a acc with
      | none => none
      | some acc2 => scan_lines floatParse b acc2 := by
  induction a with
  | nil => intro acc; rfl
  | cons l tl ih =>
    intro acc
    rw [List.cons_append, scan_lines, scan_lines]
    cases scan_step floatParse acc l with
    | none => rfl
    | some acc2 => exact ih acc2

theorem scan_data_rows (floatParse : String → Option (List ℚ))
    (rs : List DataRow) : ∀ acc : ReadAcc,
    scan_lines floatParse (rs.map FileLine.data) acc =
      some { acc with
        rows := acc.rows ++ rs
        linecount := acc.linecount + rs.length } := by
  induction rs with
  | nil => intro acc; simp [scan_lines]
  | cons r rs ih =>
    intro acc
    rw [List.map_cons, scan_lines, scan_step]
    show scan_lines floatParse (rs.map FileLine.data) _ = _
    rw [ih]
    simp [List.append_assoc]
    omega

/-- A last-wins fold over a list with no match keeps its seed. -/
theorem foldl_last_none {α : Type} (P : α → Bool) :
    ∀ (l : List α) (init : Option α), (∀ x ∈ l, P x = false) →
      l.foldl (fun acc r => if P r then some r else acc) init = init := by
  intro l
  induction l with
  | nil => intro init _; rfl
  | cons x tl ih =>
    intro init h
    rw [List.foldl_cons, if_neg (by simp [h x (by simp)])]
    exact ih init fun y hy => h y (List.mem_cons_of_mem _ hy)

/-- A last-wins fold over a list whose only match is `r` returns `r`. -/
theorem foldl_last_unique {α : Type} [DecidableEq α] (P : α → Bool) (r : α) :
    ∀ (l : List α) (init : Option α), r ∈ l → P r = true →
      (∀ x ∈ l, P x = true → x = r) →
      l.foldl (fun acc r => if P r then some r else acc) init = some r := by
  intro l
  induction l with
  | nil => intro init h; exact absurd h (by simp)
  | cons x tl ih =>
    intro init hmem hPr huniq
    rw [List.foldl_cons]
    by_cases hrtl : r ∈ tl
    · exact ih _ hrtl hPr fun y hy hPy => huniq y (List.mem_cons_of_mem _ hy) hPy
    · have hxr : x = r := by
        rcases List.mem_cons.mp hmem with h | h
        · exact h.symm
        · exact absurd h hrtl
      subst hxr
      rw [if_pos hPr]
      exact foldl_last_none P tl _ fun y hy => by
        by_contra hcon
        have : P y = true := by
          cases hPy : P y with
          | false => exact absurd hPy hcon
          | true => rfl
        exact hrtl (huniq y (List.mem_cons_of_mem _ hy) this ▸ hy)

/-- A last-wins fold whose predicate only reads the row's core is the
image of the corresponding fold over the cores. -/
theorem foldl_last_core (Q : DataRowCore → Bool) :
    ∀ (rows : List DataRow) (init : Option DataRow),
      (rows.foldl (fun acc r => if Q r.core then some r else acc) init).map
          DataRow.core =
        (rows.map DataRow.core).foldl
          (fun acc rc => if Q rc then some rc else acc) (init.map DataRow.core) := by
  intro rows
  induction rows with
  | nil => intro init; rfl
  | cons r tl ih =>
    intro init
    rw [List.foldl_cons, List.map_cons, List.foldl_cons, ih]
    by_cases h : Q r.core
    · rw [if_pos h, if_pos h]
      rfl
    · rw [if_neg h, if_neg h]

theorem metaZ_lines (d : DataState) (h : d.wave_sign_impedance = '+') :
    mode_meta_lines d "Full_Impedance" =
      [FileLine.header1 d.error_type (header_errval d) d.rotation_angle,
       FileLine.header2,
       FileLine.meta "> Full_Impedance",
       FileLine.meta "> exp(+i\\omega t)",
       FileLine.meta ("> " ++ d.units),
       FileLine.meta "> 0",
       FileLine.metaCenter d.center_position.1 d.center_position.2,
       FileLine.metaCounts (nper_count d) d.stations.length] := by
  rw [mode_meta_lines, if_pos (by decide : strContainsSub "Full_Impedance"
    "Impedance" = true), h]
  rfl

theorem metaT_lines (d : DataState) (h : d.wave_sign_tipper = '+') :
    mode_meta_lines d "Full_Vertical_Components" =
      [FileLine.header1 d.error_type (header_errval d) d.rotation_angle,
       FileLine.header2,
       FileLine.meta "> Full_Vertical_Components",
       FileLine.meta "> exp(+i\\omega t)",
       FileLine.meta "> []",
       FileLine.meta "> 0",
       FileLine.metaCenter d.center_position.1 d.center_position.2,
       FileLine.metaCounts (nper_count d) d.stations.length] := by
  rw [mode_meta_lines,
    if_neg (by decide : ¬ strContainsSub "Full_Vertical_Components"
      "Impedance" = true),
    if_pos (by decide : strContainsSub "Full_Vertical_Components"
      "Vertical" = true), h]
  rfl

theorem scan_metaZ (floatParse : String → Option (List ℚ)) (acc : ReadAcc)
    (et : String) (ev rot c1 c2 : ℚ) (np ns : ℕ) (us newu : String)
    (hlc : acc.linecount = 0)
    (h1 : strContainsSub (strLower ("> " ++ us)) "vertical" = false)
    (h2 : strContainsSub (strLower ("> " ++ us)) "impedance" = false)
    (h3 : strContainsSub ("> " ++ us) "exp" = false)
    (h4 : (if strContainsSub (strLower ("> " ++ us)) "mv" then " [mV/km]/[nT]"
      else if strContainsSub (strLower ("> " ++ us)) "ohm" then "ohm"
      else acc.units) = newu) :
    scan_lines floatParse
      [FileLine.header1 et ev rot, FileLine.header2,
       FileLine.meta "> Full_Impedance", FileLine.meta "> exp(+i\\omega t)",
       FileLine.meta ("> " ++ us), FileLine.meta "> 0",
       FileLine.metaCenter c1 c2, FileLine.metaCounts np ns] acc =
      some { acc with
        units := newu
        read_impedance := true
        read_tipper := false
        wave_sign_impedance := '+'
        center_position := [c1, c2]
        linecount := 8 } := by
  simp +decide +arith [scan_lines, scan_step, hlc, h1, h2, h3, h4]

theorem scan_metaT (floatParse : String → Option (List ℚ)) (acc : ReadAcc)
    (et : String) (ev rot c1 c2 : ℚ) (np ns : ℕ)
    (hlc : 7 ≤ acc.linecount) :
    scan_lines floatParse
      [FileLine.header1 et ev rot, FileLine.header2,
       FileLine.meta "> Full_Vertical_Components",
       FileLine.meta "> exp(+i\\omega t)", FileLine.meta "> []",
       FileLine.meta "> 0", FileLine.metaCenter c1 c2,
       FileLine.metaCounts np ns] acc =
      some { acc with
        read_impedance := false
        read_tipper := true
        wave_sign_tipper := '+'
        linecount := acc.linecount + 8 } := by
  have hn1 : ¬(acc.linecount + 1 = 7) := by omega
  have hn2 : ¬(acc.linecount + 2 = 7) := by omega
  have hn3 : ¬(acc.linecount + 3 = 7) := by omega
  have hn4 : ¬(acc.linecount + 4 = 7) := by omega
  have hn5 : ¬(acc.linecount + 5 = 7) := by omega
  have hn6 : ¬(acc.linecount + 6 = 7) := by omega
  have hn7 : ¬(acc.linecount + 7 = 7) := by omega
  have hn8 : ¬(acc.linecount + 8 = 7) := by omega
  simp +decide +arith [scan_lines, scan_step, hn1, hn2, hn3, hn4, hn5, hn6,
    hn7, hn8]

theorem scan_lines_append_bind (floatParse : String → Option (List ℚ))
    (a b : List FileLine) (acc : ReadAcc) :
    scan_lines floatParse (a ++ b) acc =
      (scan_lines floatParse a acc).bind fun acc2 =>
        scan_lines floatParse b acc2 := by
  rw [scan_lines_append]
  cases scan_lines floatParse a acc <;> rfl

theorem scan_written (cabsF : CQ → ℚ) (sqrtF : ℚ → ℚ)
    (floatParse : String → Option (List ℚ)) (d : DataState) (ce : Bool)
    (init : ReadAcc) (newu : String)
    (hwz : d.wave_sign_impedance = '+') (hwt : d.wave_sign_tipper = '+')
    (hlc : init.linecount = 0) (hrows : init.rows = [])
    (h1 : strContainsSub (strLower ("> " ++ d.units)) "vertical" = false)
    (h2 : strContainsSub (strLower ("> " ++ d.units)) "impedance" = false)
    (h3 : strContainsSub ("> " ++ d.units) "exp" = false)
    (h4 : (if strContainsSub (strLower ("> " ++ d.units)) "mv" then " [mV/km]/[nT]"
      else if strContainsSub (strLower ("> " ++ d.units)) "ohm" then "ohm"
      else init.units) = newu) :
    scan_lines floatParse
      ((mode_meta_lines d "Full_Impedance" ++
          (emit_rows cabsF sqrtF d ce ["zxx", "zxy", "zyx", "zyy"]).map
            FileLine.data) ++
        (mode_meta_lines d "Full_Vertical_Components" ++
          (emit_rows cabsF sqrtF d ce ["tx", "ty"]).map FileLine.data)) init =
      some { init with
        units := newu
        read_impedance := false
        read_tipper := true
        wave_sign_impedance := '+'
        wave_sign_tipper := '+'
        center_position := [d.center_position.1, d.center_position.2]
        rows := emit_rows cabsF sqrtF d ce ["zxx", "zxy", "zyx", "zyy"] ++
          emit_rows cabsF sqrtF d ce ["tx", "ty"]
        linecount := 16 +
          (emit_rows cabsF sqrtF d ce ["zxx", "zxy", "zyx", "zyy"]).length +
          (emit_rows cabsF sqrtF d ce ["tx", "ty"]).length } := by
  rw [metaZ_lines d hwz, metaT_lines d hwt, scan_lines_append_bind,
    scan_lines_append_bind,
    scan_metaZ floatParse init d.error_type (header_errval d) d.rotation_angle
      d.center_position.1 d.center_position.2 (nper_count d) d.stations.length
      d.units newu hlc h1 h2 h3 h4]
  simp only [Option.some_bind]
  rw [scan_data_rows]
  simp only [Option.some_bind]
  rw [scan_lines_append_bind]
  rw [scan_metaT floatParse _ d.error_type (header_errval d) d.rotation_angle
    d.center_position.1 d.center_position.2 (nper_count d) d.stations.length
    (by simp; omega)]
  simp only [Option.some_bind]
  rw [scan_data_rows]
  simp [hrows]
  omega

theorem period_idx_inj (d : DataState) (hnodupP : d.period_list.Nodup)
    (i j : ℕ) (hi : i < d.period_list.length) (hj : j < d.period_list.length)
    (h : d.period_list.getD i 0 = d.period_list.getD j 0) : i = j := by
  rw [List.getD_eq_getElem _ _ hi, List.getD_eq_getElem _ _ hj] at h
  exact (List.Nodup.getElem_inj_iff hnodupP).mp h

/-- The six component names round-trip through `upper`/`lower`. -/
theorem comp_roundtrip (c : String)
    (h : c ∈ (["zxx", "zxy", "zyx", "zyy", "tx", "ty"] : List String)) :
    strLower (strUpper c) = c := by
  fin_cases h <;> decide

theorem comp_inj (c c' : String)
    (hc : c ∈ (["zxx", "zxy", "zyx", "zyy", "tx", "ty"] : List String))
    (hc' : c' ∈ (["zxx", "zxy", "zyx", "zyy", "tx", "ty"] : List String))
    (h : strLower (strUpper c') = c) : c' = c := by
  fin_cases hc <;> fin_cases hc' <;> revert h <;> decide

/-- `last_match` with the reader's key predicate, through the cores. -/
theorem last_match_core_char (s : String) (p : ℚ) (c : String)
    (rows : List DataRow) :
    (last_match (fun r => r.sta = s && r.per = p && strLower r.com = c)
        rows).map DataRow.core =
      (rows.map DataRow.core).foldl
        (fun acc rc => if (rc.sta = s && rc.per = p && strLower rc.com = c : Bool)
          then some rc else acc) none := by
  exact foldl_last_core
    (fun rc => rc.sta = s && rc.per = p && strLower rc.com = c) rows none

theorem coreRow_sta (d : DataState) (st : StationD) (ff : ℕ) (c : String) :
    (coreRow d st ff c).sta = st.name := rfl

theorem coreRow_per (d : DataState) (st : StationD) (ff : ℕ) (c : String) :
    (coreRow d st ff c).per = d.period_list.getD ff 0 := rfl

theorem coreRow_com (d : DataState) (st : StationD) (ff : ℕ) (c : String) :
    (coreRow d st ff c).com = strUpper c := rfl

theorem coreRow_rea (d : DataState) (st : StationD) (ff : ℕ) (c : String) :
    (coreRow d st ff c).rea =
      if d.units = "ohm" then (comp_value st ff c).re / 796
      else (comp_value st ff c).re := rfl

theorem coreRow_ima (d : DataState) (st : StationD) (ff : ℕ) (c : String) :
    (coreRow d st ff c).ima =
      if d.units = "ohm" then (comp_value st ff c).im / 796
      else (comp_value st ff c).im := rfl

theorem rows_cores (cabsF : CQ → ℚ) (sqrtF : ℚ → ℚ) (d : DataState) (ce : Bool) :
    (emit_rows cabsF sqrtF d ce ["zxx", "zxy", "zyx", "zyy"] ++
        emit_rows cabsF sqrtF d ce ["tx", "ty"]).map DataRow.core =
      ((block_keys d ["zxx", "zxy", "zyx", "zyy"]).filter keyWritable).map
          (fun k => coreRow d k.1 k.2.1 k.2.2) ++
        ((block_keys d ["tx", "ty"]).filter keyWritable).map
          (fun k => coreRow d k.1 k.2.1 k.2.2) := by
  rw [List.map_append, emit_rows_core, emit_rows_core]

/-- The reader's key predicate holds of a written core exactly for the
matching station, period index and component. -/
theorem coreRow_key_iff (d : DataState)
    (hnodupP : d.period_list.Nodup)
    (hnodupS : (d.stations.map StationD.name).Nodup)
    (st : StationD) (hst : st ∈ d.stations) (ff : ℕ)
    (hff : ff < d.period_list.length) (c : String)
    (hc : c ∈ (["zxx", "zxy", "zyx", "zyy", "tx", "ty"] : List String))
    (st' : StationD) (hst' : st' ∈ d.stations) (ff' : ℕ)
    (hff' : ff' < d.period_list.length) (c' : String)
    (hc' : c' ∈ (["zxx", "zxy", "zyx", "zyy", "tx", "ty"] : List String)) :
    (((coreRow d st' ff' c').sta = st.name &&
        (coreRow d st' ff' c').per = d.period_list.getD ff 0 &&
        strLower (coreRow d st' ff' c').com = c) = true) ↔
      (st' = st ∧ ff' = ff ∧ c' = c) := by
  rw [coreRow_sta, coreRow_per, coreRow_com]
  simp only [Bool.and_eq_true, decide_eq_true_eq]
  constructor
  · rintro ⟨⟨hname, hper⟩, hcomp⟩
    have h1 : st' = st := List.inj_on_of_nodup_map hnodupS hst' hst hname
    have h2 : ff' = ff := period_idx_inj d hnodupP ff' ff hff' hff hper
    exact ⟨h1, h2, comp_inj c c' hc hc' hcomp⟩
  · rintro ⟨rfl, rfl, rfl⟩
    exact ⟨⟨rfl, rfl⟩, comp_roundtrip _ (by assumption)⟩

/-- The last data line of the written file matching the reader's key of
a given station/period/component is exactly the written line for that
key (by core): present iff the emission guard passed. -/
theorem written_last_match (cabsF : CQ → ℚ) (sqrtF : ℚ → ℚ) (d : DataState)
    (ce : Bool)
    (hnodupP : d.period_list.Nodup)
    (hnodupS : (d.stations.map StationD.name).Nodup)
    (st : StationD) (hst : st ∈ d.stations) (ff : ℕ)
    (hff : ff < d.period_list.length) (c : String)
    (hc : c ∈ (["zxx", "zxy", "zyx", "zyy", "tx", "ty"] : List String)) :
    (last_match (fun r => r.sta = st.name &&
        r.per = d.period_list.getD ff 0 && strLower r.com = c)
      (emit_rows cabsF sqrtF d ce ["zxx", "zxy", "zyx", "zyy"] ++
        emit_rows cabsF sqrtF d ce ["tx", "ty"])).map DataRow.core =
      (if writableB (comp_value st ff c) then some (coreRow d st ff c)
       else none) := by
  rw [last_match_core_char, rows_cores]
  have hshape : ∀ x ∈
      ((block_keys d ["zxx", "zxy", "zyx", "zyy"]).filter keyWritable).map
          (fun k => coreRow d k.1 k.2.1 k.2.2) ++
        ((block_keys d ["tx", "ty"]).filter keyWritable).map
          (fun k => coreRow d k.1 k.2.1 k.2.2),
      ∃ st' ff' c', st' ∈ d.stations ∧ ff' < d.period_list.length ∧
        c' ∈ (["zxx", "zxy", "zyx", "zyy", "tx", "ty"] : List String) ∧
        keyWritable (st', ff', c') = true ∧ x = coreRow d st' ff' c' := by
    intro x hx
    rcases List.mem_append.mp hx with hx' | hx'
    · obtain ⟨k, hk, rfl⟩ := List.mem_map.mp hx'
      have hk' := List.mem_filter.mp hk
      obtain ⟨h1, h2, h3⟩ := (mem_block_keys d _ k).mp hk'.1
      refine ⟨k.1, k.2.1, k.2.2, h1, h2, ?_, ?_, rfl⟩
      · simp only [List.mem_cons, List.not_mem_nil, or_false] at h3 ⊢
        tauto
      · have := hk'.2
        simpa [keyWritable] using this
    · obtain ⟨k, hk, rfl⟩ := List.mem_map.mp hx'
      have hk' := List.mem_filter.mp hk
      obtain ⟨h1, h2, h3⟩ := (mem_block_keys d _ k).mp hk'.1
      refine ⟨k.1, k.2.1, k.2.2, h1, h2, ?_, ?_, rfl⟩
      · simp only [List.mem_cons, List.not_mem_nil, or_false] at h3 ⊢
        tauto
      · have := hk'.2
        simpa [keyWritable] using this
  by_cases hw : writableB (comp_value st ff c)
  · rw [if_pos hw]
    apply foldl_last_unique _ (coreRow d st ff c)
    · have hc6 : c ∈ (["zxx", "zxy", "zyx", "zyy"] : List String) ∨
          c ∈ (["tx", "ty"] : List String) := by
        simp only [List.mem_cons, List.not_mem_nil, or_false] at hc ⊢
        tauto
      rcases hc6 with hcz | hct
      · apply List.mem_append_left
        exact List.mem_map.mpr ⟨(st, ff, c),
          List.mem_filter.mpr ⟨(mem_block_keys d _ _).mpr ⟨hst, hff, hcz⟩, hw⟩,
          rfl⟩
      · apply List.mem_append_right
        exact List.mem_map.mpr ⟨(st, ff, c),
          List.mem_filter.mpr ⟨(mem_block_keys d _ _).mpr ⟨hst, hff, hct⟩, hw⟩,
          rfl⟩
    · exact (coreRow_key_iff d hnodupP hnodupS st hst ff hff c hc
        st hst ff hff c hc).mpr ⟨rfl, rfl, rfl⟩
    · intro x hx hQx
      obtain ⟨st', ff', c', h1, h2, h3, h4, rfl⟩ := hshape x hx
      obtain ⟨rfl, rfl, rfl⟩ := (coreRow_key_iff d hnodupP hnodupS st hst ff
        hff c hc st' h1 ff' h2 c' h3).mp hQx
      rfl
  · rw [if_neg hw]
    apply foldl_last_none
    intro x hx
    by_contra hcon
    simp only [Bool.not_eq_false] at hcon
    obtain ⟨st', ff', c', h1, h2, h3, h4, rfl⟩ := hshape x hx
    obtain ⟨rfl, rfl, rfl⟩ := (coreRow_key_iff d hnodupP hnodupS st hst ff
      hff c hc st' h1 ff' h2 c' h3).mp hcon
    exact hw h4


/-- The impedance cell read back for a written key: the original value
when the guard passed (the Ohm division and multiplication cancel), the
numpy dummy 0 otherwise. -/
theorem read_z_cell_written (cabsF : CQ → ℚ) (sqrtF : ℚ → ℚ) (d : DataState)
    (ce : Bool) (hnodupP : d.period_list.Nodup)
    (hnodupS : (d.stations.map StationD.name).Nodup) (U : String)
    (hU : (U = "ohm") ↔ (d.units = "ohm"))
    (st : StationD) (hst : st ∈ d.stations) (ff : ℕ)
    (hff : ff < d.period_list.length) (c : String)
    (hc : c ∈ (["zxx", "zxy", "zyx", "zyy"] : List String)) :
    read_z_cell U '+'
      (emit_rows cabsF sqrtF d ce ["zxx", "zxy", "zyx", "zyy"] ++
        emit_rows cabsF sqrtF d ce ["tx", "ty"])
      st.name (d.period_list.getD ff 0) c =
      (if writableB (comp_value st ff c) then comp_value st ff c
       else CQ.zero) := by
  have hc6 : c ∈ (["zxx", "zxy", "zyx", "zyy", "tx", "ty"] : List String) := by
    simp only [List.mem_cons, List.not_mem_nil, or_false] at hc ⊢
    tauto
  have H := written_last_match cabsF sqrtF d ce hnodupP hnodupS st hst ff hff
    c hc6
  unfold read_z_cell
  cases hlm : last_match
      (fun r => r.sta = st.name && r.per = d.period_list.getD ff 0 &&
        strLower r.com = c)
      (emit_rows cabsF sqrtF d ce ["zxx", "zxy", "zyx", "zyy"] ++
        emit_rows cabsF sqrtF d ce ["tx", "ty"]) with
  | none =>
    rw [hlm] at H
    by_cases hw : writableB (comp_value st ff c)
    · rw [if_pos hw] at H
      exact absurd H (by simp)
    · rw [if_neg hw]
  | some r =>
    rw [hlm] at H
    by_cases hw : writableB (comp_value st ff c)
    · rw [if_pos hw] at H
      have hcore : r.core = coreRow d st ff c := by
        simpa using H
      have hrea : r.rea = if d.units = "ohm" then (comp_value st ff c).re / 796
          else (comp_value st ff c).re := by
        have h0 : r.rea = r.core.rea := rfl
        rw [h0, hcore, coreRow_rea]
      have hima : r.ima = if d.units = "ohm" then (comp_value st ff c).im / 796
          else (comp_value st ff c).im := by
        have h0 : r.ima = r.core.ima := rfl
        rw [h0, hcore, coreRow_ima]
      rw [if_pos hw]
      dsimp only
      rw [if_pos (rfl : ('+' : Char) = '+'), hrea, hima]
      by_cases hohm : d.units = "ohm"
      · rw [if_pos (hU.mpr hohm), if_pos hohm, if_pos hohm]
        dsimp only
        have e1 : (comp_value st ff c).re / 796 * 796 = (comp_value st ff c).re :=
          div_mul_cancel₀ _ (by norm_num)
        have e2 : (comp_value st ff c).im / 796 * 796 = (comp_value st ff c).im :=
          div_mul_cancel₀ _ (by norm_num)
        rw [e1, e2]
      · rw [if_neg (fun h => hohm (hU.mp h)), if_neg hohm, if_neg hohm]
    · rw [if_neg hw] at H
      exact absurd H (by simp)

/-- The tipper cell read back for a written key: under Ohm units the
writer divided the tipper by 796 (see C6) but the reader multiplies only
impedance back, so the read value is the original divided by 796; under
any other units it is the original; 0 when the guard failed. -/
theorem read_t_cell_written (cabsF : CQ → ℚ) (sqrtF : ℚ → ℚ) (d : DataState)
    (ce : Bool) (hnodupP : d.period_list.Nodup)
    (hnodupS : (d.stations.map StationD.name).Nodup)
    (st : StationD) (hst : st ∈ d.stations) (ff : ℕ)
    (hff : ff < d.period_list.length) (c : String)
    (hc : c ∈ (["tx", "ty"] : List String)) :
    read_t_cell '+'
      (emit_rows cabsF sqrtF d ce ["zxx", "zxy", "zyx", "zyy"] ++
        emit_rows cabsF sqrtF d ce ["tx", "ty"])
      st.name (d.period_list.getD ff 0) c =
      (if writableB (comp_value st ff c) then
        (if d.units = "ohm" then
          ⟨(comp_value st ff c).re / 796, (comp_value st ff c).im / 796⟩
        else comp_value st ff c)
       else CQ.zero) := by
  have hc6 : c ∈ (["zxx", "zxy", "zyx", "zyy", "tx", "ty"] : List String) := by
    simp only [List.mem_cons, List.not_mem_nil, or_false] at hc ⊢
    tauto
  have H := written_last_match cabsF sqrtF d ce hnodupP hnodupS st hst ff hff
    c hc6
  unfold read_t_cell
  cases hlm : last_match
      (fun r => r.sta = st.name && r.per = d.period_list.getD ff 0 &&
        strLower r.com = c)
      (emit_rows cabsF sqrtF d ce ["zxx", "zxy", "zyx", "zyy"] ++
        emit_rows cabsF sqrtF d ce ["tx", "ty"]) with
  | none =>
    rw [hlm] at H
    by_cases hw : writableB (comp_value st ff c)
    · rw [if_pos hw] at H
      exact absurd H (by simp)
    · rw [if_neg hw]
  | some r =>
    rw [hlm] at H
    by_cases hw : writableB (comp_value st ff c)
    · rw [if_pos hw] at H
      have hcore : r.core = coreRow d st ff c := by
        simpa using H
      have hrea : r.rea = if d.units = "ohm" then (comp_value st ff c).re / 796
          else (comp_value st ff c).re := by
        have h0 : r.rea = r.core.rea := rfl
        rw [h0, hcore, coreRow_rea]
      have hima : r.ima = if d.units = "ohm" then (comp_value st ff c).im / 796
          else (comp_value st ff c).im := by
        have h0 : r.ima = r.core.ima := rfl
        rw [h0, hcore, coreRow_ima]
      rw [if_pos hw]
      dsimp only
      rw [if_pos (rfl : ('+' : Char) = '+'), hrea, hima]
      by_cases hohm : d.units = "ohm"
      · rw [if_pos hohm, if_pos hohm, if_pos hohm]
      · rw [if_neg hohm, if_neg hohm, if_neg hohm]
    · rw [if_neg hw] at H
      exact absurd H (by simp)

/-- Claim C1 (amended): writing a populated `Data` object with
`write_data_file` (inversion mode `'1'`, units `ohm` or `[mV/km]/[nT]`,
`'+'` wave signs, distinct periods and station names) and reading the
file back with `read_data_file` succeeds and reproduces the center
position exactly and both wave signs exactly; the units survive only up
to a leading space (`' [mV/km]/[nT]'`, line 1216 — see the
counterexample); every impedance cell of a written (station, period,
component) key reads back as exactly the original value (the Ohm
division and multiplication by 796 cancel), every unwritten key reads
back as the numpy dummy 0, and every tipper cell reads back as the
original value under `[mV/km]/[nT]` units but as the original divided
by 796 under Ohm units (the writer divides the tipper, the reader only
multiplies the impedance back — the C6 bug). -/
theorem C1_data_round_trip (cabsF : CQ → ℚ) (sqrtF : ℚ → ℚ)
    (floatParse : String → Option (List ℚ)) (d : DataState) (ce : Bool)
    (init : ReadAcc)
    (hmode : d.inv_mode = "1")
    (hunits : d.units = "ohm" ∨ d.units = "[mV/km]/[nT]")
    (hwz : d.wave_sign_impedance = '+')
    (hwt : d.wave_sign_tipper = '+')
    (hnodupP : d.period_list.Nodup)
    (hnodupS : (d.stations.map StationD.name).Nodup)
    (hlc : init.linecount = 0) (hrows : init.rows = []) :
    ∃ ls rd, write_data_file cabsF sqrtF d ce = some ls ∧
      read_data_file floatParse ls init = some rd ∧
      rd.center_position = [d.center_position.1, d.center_position.2] ∧
      rd.wave_sign_impedance = d.wave_sign_impedance ∧
      rd.wave_sign_tipper = d.wave_sign_tipper ∧
      rd.units = (if d.units = "ohm" then "ohm" else " [mV/km]/[nT]") ∧
      (∀ st ∈ d.stations, ∀ ff < d.period_list.length,
        ∀ c ∈ (["zxx", "zxy", "zyx", "zyy"] : List String),
          read_z_cell rd.units rd.wave_sign_impedance rd.rows st.name
              (d.period_list.getD ff 0) c =
            (if writableB (comp_value st ff c) then comp_value st ff c
             else CQ.zero)) ∧
      (∀ st ∈ d.stations, ∀ ff < d.period_list.length,
        ∀ c ∈ (["tx", "ty"] : List String),
          read_t_cell rd.wave_sign_tipper rd.rows st.name
              (d.period_list.getD ff 0) c =
            (if writableB (comp_value st ff c) then
              (if d.units = "ohm" then
                ⟨(comp_value st ff c).re / 796, (comp_value st ff c).im / 796⟩
              else comp_value st ff c)
             else CQ.zero)) := by
  rcases hunits with hu | hu
  · have h1 : strContainsSub (strLower ("> " ++ d.units)) "vertical" = false := by
      rw [hu]; decide
    have h2 : strContainsSub (strLower ("> " ++ d.units)) "impedance" = false := by
      rw [hu]; decide
    have h3 : strContainsSub ("> " ++ d.units) "exp" = false := by
      rw [hu]; decide
    have h4 : (if strContainsSub (strLower ("> " ++ d.units)) "mv" then
          " [mV/km]/[nT]"
        else if strContainsSub (strLower ("> " ++ d.units)) "ohm" then "ohm"
        else init.units) = "ohm" := by
      rw [hu]
      rw [if_neg (by decide), if_pos (by decide)]
    have hscan := scan_written cabsF sqrtF floatParse d ce init "ohm" hwz hwt
      hlc hrows h1 h2 h3 h4
    refine ⟨_,
      { units := "ohm"
        wave_sign_impedance := '+'
        wave_sign_tipper := '+'
        center_position := [d.center_position.1, d.center_position.2]
        period_list := sortedSet
          ((emit_rows cabsF sqrtF d ce ["zxx", "zxy", "zyx", "zyy"] ++
            emit_rows cabsF sqrtF d ce ["tx", "ty"]).map DataRow.per)
        rows := emit_rows cabsF sqrtF d ce ["zxx", "zxy", "zyx", "zyy"] ++
          emit_rows cabsF sqrtF d ce ["tx", "ty"] },
      write_data_file_mode1 cabsF sqrtF d ce hmode, ?_, rfl, hwz.symm,
      hwt.symm, ?_, ?_, ?_⟩
    · rw [read_data_file, hscan]
      dsimp only
      rw [if_neg (by simp)]
    · rw [if_pos hu]
    · intro st hst ff hff c hc
      exact read_z_cell_written cabsF sqrtF d ce hnodupP hnodupS "ohm"
        (by rw [hu]) st hst ff hff c hc
    · intro st hst ff hff c hc
      exact read_t_cell_written cabsF sqrtF d ce hnodupP hnodupS st hst ff hff
        c hc
  · have h1 : strContainsSub (strLower ("> " ++ d.units)) "vertical" = false := by
      rw [hu]; decide
    have h2 : strContainsSub (strLower ("> " ++ d.units)) "impedance" = false := by
      rw [hu]; decide
    have h3 : strContainsSub ("> " ++ d.units) "exp" = false := by
      rw [hu]; decide
    have h4 : (if strContainsSub (strLower ("> " ++ d.units)) "mv" then
          " [mV/km]/[nT]"
        else if strContainsSub (strLower ("> " ++ d.units)) "ohm" then "ohm"
        else init.units) = " [mV/km]/[nT]" := by
      rw [hu]
      rw [if_pos (by decide)]
    have hscan := scan_written cabsF sqrtF floatParse d ce init " [mV/km]/[nT]"
      hwz hwt hlc hrows h1 h2 h3 h4
    refine ⟨_,
      { units := " [mV/km]/[nT]"
        wave_sign_impedance := '+'
        wave_sign_tipper := '+'
        center_position := [d.center_position.1, d.center_position.2]
        period_list := sortedSet
          ((emit_rows cabsF sqrtF d ce ["zxx", "zxy", "zyx", "zyy"] ++
            emit_rows cabsF sqrtF d ce ["tx", "ty"]).map DataRow.per)
        rows := emit_rows cabsF sqrtF d ce ["zxx", "zxy", "zyx", "zyy"] ++
          emit_rows cabsF sqrtF d ce ["tx", "ty"] },
      write_data_file_mode1 cabsF sqrtF d ce hmode, ?_, rfl, hwz.symm,
      hwt.symm, ?_, ?_, ?_⟩
    · rw [read_data_file, hscan]
      dsimp only
      rw [if_neg (by simp)]
    · rw [if_neg (by rw [hu]; decide)]
    · intro st hst ff hff c hc
      exact read_z_cell_written cabsF sqrtF d ce hnodupP hnodupS " [mV/km]/[nT]"
        (by rw [hu]; decide) st hst ff hff c hc
    · intro st hst ff hff c hc
      exact read_t_cell_written cabsF sqrtF d ce hnodupP hnodupS st hst ff hff
        c hc

/-- A one-station, one-period data set: a writable `zxy` and a writable
`ty`. -/
def stC1 : StationD :=
  { name := "s1"
    lat := 1
    lon := 2
    elev := 3
    rel_east := 4
    rel_north := 5
    z := [⟨⟨0, 0⟩, ⟨1, 2⟩, ⟨0, 0⟩, ⟨0, 0⟩⟩]
    z_err := [⟨0, 1/10, 0, 0⟩]
    tip := [⟨⟨0, 0⟩, ⟨3, 4⟩⟩]
    tip_err := [⟨0, 1/20⟩] }

/-- A `Data` state in mV units with `'+'` signs, inversion mode 1. -/
def dC1b : DataState :=
  { stations := [stC1]
    period_list := [4]
    units := "[mV/km]/[nT]"
    wave_sign_impedance := '+'
    wave_sign_tipper := '+'
    inv_mode := "1"
    formatting := "1"
    error_type := "floor"
    error_floor := 5
    error_value := 5
    error_egbert := 3
    error_tipper := 1/20
    center_position := (7, 8)
    rotation_angle := 0 }

/-- A fresh reader state (the `Data` defaults before `read_data_file`). -/
def accC1 : ReadAcc :=
  { units := "[mV/km]/[nT]"
    wave_sign_impedance := '+'
    wave_sign_tipper := '+'
    read_impedance := false
    read_tipper := false
    center_position := []
    rows := []
    linecount := 0 }

/-- Writing `dC1b` (stored units exactly `'[mV/km]/[nT]'`) and reading
the file back yields units `' [mV/km]/[nT]'` with a leading space (line
1216 of the reader), so the units metadata is not reproduced exactly. -/
theorem C1_counterexample :
    ∃ ls rd, write_data_file (fun _ => 0) (fun _ => 0) dC1b false = some ls ∧
      read_data_file (fun _ => none) ls accC1 = some rd ∧
      dC1b.units = "[mV/km]/[nT]" ∧ rd.units = " [mV/km]/[nT]" ∧
      rd.units ≠ dC1b.units :=
  ⟨_, _, rfl, rfl, rfl, rfl, by decide⟩

/-- The Ohm-units variant of `dC1b`. -/
def dC1w : DataState :=
  { dC1b with units := "ohm" }

/-- The round trip at `dC1w` (Ohm units): all hypotheses of
`C1_data_round_trip` hold and the conclusion follows — in particular the
center `(7, 8)`, the `'+'` wave signs, units `'ohm'`, and every written
impedance cell reads back exactly. -/
theorem C1_witness :
    dC1w.inv_mode = "1" ∧
    (dC1w.units = "ohm" ∨ dC1w.units = "[mV/km]/[nT]") ∧
    dC1w.wave_sign_impedance = '+' ∧ dC1w.wave_sign_tipper = '+' ∧
    dC1w.period_list.Nodup ∧ (dC1w.stations.map StationD.name).Nodup ∧
    accC1.linecount = 0 ∧ accC1.rows = [] ∧
    (∃ ls rd, write_data_file (fun _ => 0) (fun _ => 0) dC1w false = some ls ∧
      read_data_file (fun _ => none) ls accC1 = some rd ∧
      rd.center_position = [dC1w.center_position.1, dC1w.center_position.2] ∧
      rd.wave_sign_impedance = dC1w.wave_sign_impedance ∧
      rd.wave_sign_tipper = dC1w.wave_sign_tipper ∧
      rd.units = (if dC1w.units = "ohm" then "ohm" else " [mV/km]/[nT]") ∧
      (∀ st ∈ dC1w.stations, ∀ ff < dC1w.period_list.length,
        ∀ c ∈ (["zxx", "zxy", "zyx", "zyy"] : List String),
          read_z_cell rd.units rd.wave_sign_impedance rd.rows st.name
              (dC1w.period_list.getD ff 0) c =
            (if writableB (comp_value st ff c) then comp_value st ff c
             else CQ.zero)) ∧
      (∀ st ∈ dC1w.stations, ∀ ff < dC1w.period_list.length,
        ∀ c ∈ (["tx", "ty"] : List String),
          read_t_cell rd.wave_sign_tipper rd.rows st.name
              (dC1w.period_list.getD ff 0) c =
            (if writableB (comp_value st ff c) then
              (if dC1w.units = "ohm" then
                ⟨(comp_value st ff c).re / 796, (comp_value st ff c).im / 796⟩
              else comp_value st ff c)
             else CQ.zero))) :=
  ⟨by decide, by decide, by decide, by decide, by decide, by decide, by decide,
    by decide,
    C1_data_round_trip (fun _ => 0) (fun _ => 0) (fun _ => none) dC1w false
      accC1 (by decide) (by decide) (by decide) (by decide) (by decide)
      (by decide) (by decide) (by decide)⟩
